import Mathlib

/-! # GAMBOWL voice chat: signaling relay and client session

A shallow embedding of `src/server/voice-signaling.owl.js` (the socket.io
signaling relay) and `src/public/js/voice.owl.js` (the `VoiceChat` client),
followed by theorems about them.

Modelling conventions.

* User ids and room ids are JavaScript strings; a user id is truthy iff it is
  not the empty string.
* Sockets are numbered; `idRoom s` is the id string socket.io generated for
  socket `s`.  It is never empty, so `if (toSocketId)` holds exactly when the
  lookup finds an entry.  On connection socket.io puts a socket into the room
  named by its id, and `nsp.to(id)` addresses that room, whoever is in it.
* `userSocket` and `socketMeta` are JavaScript `Map`s on which the source only
  calls `get`, `set` and `delete`; they are embedded as functions into
  `Option`.
* The socket.io room table is embedded as a function from room names to member
  lists in insertion order; the source only reads `rooms.get(roomId) || []`.
* The module is mounted either on a namespace (`namespace` other than '/') or,
  by default, on the server object itself; the state records which
  (`Relay.namespaced`), because the join handler behaves differently.
* A client handler runs to completion, with one exception: the roster loop of
  `_handleVoiceUsers` can also be run one iteration at a time (`rosterIter`),
  so that a message handled between two iterations can be expressed.
-/

namespace Gambowl

/-! ## Shared vocabulary -/

abbrev UserId := String
abbrev RoomId := String
abbrev SocketId := Nat
abbrev Sdp := String
abbrev Candidate := String

/-- Messages a client sends to the relay (`socket.emit` on the client). -/
inductive ClientMsg where
  | voiceJoin (roomId : RoomId) (userId : UserId)
  | voiceLeave (roomId : RoomId) (userId : UserId)
  | voiceOffer (toUser : UserId) (fromUser : UserId) (offer : Sdp)
  | voiceAnswer (toUser : UserId) (fromUser : UserId) (answer : Sdp)
  | voiceIceCandidate (toUser : UserId) (fromUser : UserId) (candidate : Candidate)
  deriving DecidableEq, Repr

/-- Messages the relay sends to clients. -/
inductive ServerMsg where
  | voiceUsers (users : List UserId)
  | voiceUserJoined (userId : UserId)
  | voiceUserLeft (userId : UserId)
  | voiceOffer (fromUser : UserId) (offer : Sdp)
  | voiceAnswer (fromUser : UserId) (answer : Sdp)
  | voiceIceCandidate (fromUser : UserId) (candidate : Candidate)
  deriving DecidableEq, Repr

/-! ## The relay (`voice-signaling.owl.js`) -/

/-- The value stored in `socketMeta`: `{ roomId, userId }`. -/
structure Meta where
  roomId : RoomId
  userId : UserId
  deriving DecidableEq, Repr

/-- The relay state: the two registry maps of the module, the socket.io
room table they are used with, and how the module was mounted: `namespaced` is
`true` when `nsp` is a namespace (`io.of(namespace)`), `false` when it is the
server object `io` (the default `namespace = '/'`, line 9). -/
structure Relay where
  userSocket : UserId → Option SocketId
  socketMeta : SocketId → Option Meta
  rooms : RoomId → List SocketId
  namespaced : Bool

/-- One emission of the relay.
`reply s m` is `socket.emit(m)` on socket `s`: that socket only;
`toSocket s m` is `nsp.to(id).emit(m)` with `id` the id of socket `s`: every
member of the room named by that id;
`broadcast r s m` is `socket.to(r).emit(m)` issued by socket `s`: every member
of room `r` except `s`. -/
inductive Out where
  | toSocket (s : SocketId) (m : ServerMsg)
  | broadcast (room : RoomId) (except : SocketId) (m : ServerMsg)
  | reply (s : SocketId) (m : ServerMsg)
  deriving DecidableEq, Repr

/-- The id string of socket `s`, which is also the name of the room socket.io
puts the socket into on connection. -/
def idRoom (s : SocketId) : RoomId :=
  String.mk (List.replicate (s + 1) '#')

/-- The relay right after `module.exports` ran, mounted as given: empty maps,
no rooms. -/
def Relay.emptyOn (namespaced : Bool) : Relay :=
  { userSocket := fun _ => none, socketMeta := fun _ => none, rooms := fun _ => [],
    namespaced := namespaced }

/-- The relay right after `module.exports` ran, mounted on a namespace as in
the example of the module header: empty maps, no rooms. -/
def Relay.empty : Relay := Relay.emptyOn true

/-- `Set.prototype.add`: append when absent, keep insertion order. -/
def setAdd (l : List SocketId) (s : SocketId) : List SocketId :=
  if s ∈ l then l else l ++ [s]

/-- `Set.prototype.delete`. -/
def setDelete (l : List SocketId) (s : SocketId) : List SocketId :=
  l.filter (fun x => x ≠ s)

/-- Lines 25-31 of the join handler: the member sockets of the room, in order,
mapped to the user id recorded for them, skipping sockets without metadata or
with a falsy user id. -/
def roster (st : Relay) (roomId : RoomId) : List UserId :=
  (st.rooms roomId).filterMap (fun sId =>
    match st.socketMeta sId with
    | some m => if m.userId ≠ "" then some m.userId else none
    | none => none)

/-- The sockets an emission is delivered to, given the room table. -/
def recipients (st : Relay) : Out → List SocketId
  | .toSocket s _ => st.rooms (idRoom s)
  | .broadcast room except _ => (st.rooms room).filter (fun x => x ≠ except)
  | .reply s _ => [s]

/-- What socket.io does before it fires `connection`: the socket joins the
room named by its own id.  The `connection` handler itself only registers the
handlers below. -/
def connect (st : Relay) (socket : SocketId) : Relay × List Out :=
  ({ st with rooms :=
      Function.update st.rooms (idRoom socket) (setAdd (st.rooms (idRoom socket)) socket) }, [])

/-- The `voice-join` handler of socket `socket`.  Lines 20-22 write the room
table and the two maps.  Line 25 reads `nsp.adapter.rooms`: on a namespace that
is the room table and the handler goes on to emit; on the server object
`adapter` is a method, `nsp.adapter.rooms` is undefined, and the handler
raises there, after the writes and before any emission. -/
def voiceJoin (st : Relay) (socket : SocketId) (roomId : RoomId) (userId : UserId) :
    Relay × List Out :=
  let st1 : Relay :=
    { st with rooms := Function.update st.rooms roomId (setAdd (st.rooms roomId) socket) }
  let st2 : Relay :=
    { st1 with userSocket := Function.update st1.userSocket userId (some socket) }
  let st3 : Relay :=
    { st2 with socketMeta := Function.update st2.socketMeta socket (some ⟨roomId, userId⟩) }
  if st.namespaced then
    let users := roster st3 roomId
    (st3, [Out.reply socket (.voiceUsers users),
           Out.broadcast roomId socket (.voiceUserJoined userId)])
  else (st3, [])

/-- Whether the `voice-join` handler ends by raising (the `TypeError` at line
25 on the default mount). -/
def voiceJoinRaises (st : Relay) : Bool := !st.namespaced

/-- The `voice-leave` handler of socket `socket`. -/
def voiceLeave (st : Relay) (socket : SocketId) (roomId : RoomId) (userId : UserId) :
    Relay × List Out :=
  let st1 : Relay :=
    { st with rooms := Function.update st.rooms roomId (setDelete (st.rooms roomId) socket) }
  let st2 : Relay :=
    { st1 with userSocket := Function.update st1.userSocket userId none }
  let st3 : Relay :=
    { st2 with socketMeta := Function.update st2.socketMeta socket none }
  (st3, [Out.broadcast roomId socket (.voiceUserLeft userId)])

/-- The `voice-offer` handler. -/
def voiceOffer (st : Relay) (toUser fromUser : UserId) (offer : Sdp) : Relay × List Out :=
  match st.userSocket toUser with
  | some toSocketId => (st, [Out.toSocket toSocketId (.voiceOffer fromUser offer)])
  | none => (st, [])

/-- The `voice-answer` handler. -/
def voiceAnswer (st : Relay) (toUser fromUser : UserId) (answer : Sdp) : Relay × List Out :=
  match st.userSocket toUser with
  | some toSocketId => (st, [Out.toSocket toSocketId (.voiceAnswer fromUser answer)])
  | none => (st, [])

/-- The `voice-ice-candidate` handler. -/
def voiceIceCandidate (st : Relay) (toUser fromUser : UserId) (candidate : Candidate) :
    Relay × List Out :=
  match st.userSocket toUser with
  | some toSocketId => (st, [Out.toSocket toSocketId (.voiceIceCandidate fromUser candidate)])
  | none => (st, [])

/-- What socket.io does before it fires `disconnect`: the socket leaves every
room it was in. -/
def leaveAll (st : Relay) (socket : SocketId) : Relay :=
  { st with rooms := fun r => setDelete (st.rooms r) socket }

/-- The `disconnect` handler of socket `socket`, run after socket.io removed
the socket from all rooms. -/
def disconnect (st : Relay) (socket : SocketId) : Relay × List Out :=
  let st0 := leaveAll st socket
  match st0.socketMeta socket with
  | some m =>
    let st1 : Relay := { st0 with userSocket := Function.update st0.userSocket m.userId none }
    let st2 : Relay := { st1 with socketMeta := Function.update st1.socketMeta socket none }
    (st2, [Out.broadcast m.roomId socket (.voiceUserLeft m.userId)])
  | none => (st0, [])

/-- An event processed by the relay on behalf of one socket. -/
inductive RelayEvent where
  | msg (m : ClientMsg)
  | disconnect
  | connect
  deriving DecidableEq, Repr

/-- Dispatch of one event of socket `socket` to its handler. -/
def relayStep (st : Relay) (socket : SocketId) : RelayEvent → Relay × List Out
  | .connect => connect st socket
  | .msg (.voiceJoin roomId userId) => voiceJoin st socket roomId userId
  | .msg (.voiceLeave roomId userId) => voiceLeave st socket roomId userId
  | .msg (.voiceOffer toUser f offer) => voiceOffer st toUser f offer
  | .msg (.voiceAnswer toUser f answer) => voiceAnswer st toUser f answer
  | .msg (.voiceIceCandidate toUser f candidate) => voiceIceCandidate st toUser f candidate
  | .disconnect => disconnect st socket

/-! ## The client (`voice.owl.js`)

The browser capabilities the class drives (media capture, the socket.io
client, `RTCPeerConnection`, the document) are external.  Calls into them are
recorded in a trace of `Effect`s, and their outcomes (success or a raised
error) are supplied by an `Env`.  A peer connection is referred to by the id of
the peer it was created for. -/

/-- One audio track of the captured stream. -/
structure Track where
  enabled : Bool
  ended : Bool
  deriving DecidableEq, Repr

/-- The stream returned by `getUserMedia({ audio: true })`: its tracks, all of
them audio tracks, so `getTracks()` and `getAudioTracks()` agree. -/
abbrev MediaStream := List Track

/-- The part of an `RTCPeerConnection` the class reads back. -/
structure PeerConn where
  localDescription : Option Sdp
  deriving DecidableEq, Repr

/-- An entry of `this.peers`: `{ pc, audioEl }`; `audioEl` is the id of the
attached audio element. -/
structure PeerLink where
  pc : PeerConn
  audioEl : Option String
  deriving DecidableEq, Repr

/-- The fields of a `VoiceChat` instance.  `socket` is `true` iff
`this.socket` is non-null.  `peers` is the own-property table of the plain
object `this.peers`, keys in insertion order. -/
structure VoiceChat where
  socketUrl : String
  roomId : RoomId
  userId : UserId
  iceServers : List String
  socket : Bool
  localStream : Option MediaStream
  peers : List (UserId × PeerLink)
  debug : Bool
  started : Bool
  muted : Bool
  deriving DecidableEq, Repr

/-- A call the class makes into its environment. -/
inductive Effect where
  | getUserMedia
  | ioConnect (url : String)
  | emit (m : ClientMsg)
  | socketDisconnect
  | stopTrack (track : Nat)
  | newPeerConnection (peerId : UserId)
  | addTrack (peerId : UserId) (track : Nat)
  | createOffer (peerId : UserId)
  | createAnswer (peerId : UserId)
  | setLocalDescription (peerId : UserId) (d : Sdp)
  | setRemoteDescription (peerId : UserId) (d : Sdp)
  | addIceCandidate (peerId : UserId) (c : Candidate)
  | close (peerId : UserId)
  | attachAudio (peerId : UserId)
  | removeAudioElement (peerId : UserId)
  deriving DecidableEq, Repr

/-- An error raised out of a method (a rejected promise for the async ones). -/
inductive JsError where
  | captureFailed
  | ioNotFound
  | negotiationFailed
  | typeError
  deriving DecidableEq, Repr

/-- The outcomes of the external operations: `none` or `false` means the
operation raises. -/
structure Env where
  getUserMedia : Option MediaStream
  ioAvailable : Bool
  createOffer : UserId → Option Sdp
  createAnswer : UserId → Option Sdp
  setLocalDescription : UserId → Sdp → Bool
  setRemoteDescription : UserId → Sdp → Bool
  addIceCandidate : UserId → Candidate → Bool

/-- The result of running a method: the instance afterwards, the calls made,
and the error that escaped it, if any. -/
structure Run where
  st : VoiceChat
  trace : List Effect
  err : Option JsError
  deriving DecidableEq, Repr

/-- The messages sent over the socket in a trace. -/
def sent (tr : List Effect) : List ClientMsg :=
  tr.filterMap (fun e => match e with | .emit m => some m | _ => none)

/-- The transport operations of a trace (everything on an `RTCPeerConnection`). -/
def isTransportOp : Effect → Bool
  | .newPeerConnection _ | .addTrack _ _ | .createOffer _ | .createAnswer _
  | .setLocalDescription _ _ | .setRemoteDescription _ _ | .addIceCandidate _ _
  | .close _ => true
  | _ => false

/-- `this.peers[id]`. -/
def peerGet (peers : List (UserId × PeerLink)) (id : UserId) : Option PeerLink :=
  match peers with
  | [] => none
  | (k, v) :: rest => if k = id then some v else peerGet rest id

/-- The names of the properties a plain object inherits from
`Object.prototype`; each of them is truthy on every plain object. -/
def protoNames : List String :=
  ["constructor", "__proto__", "toString", "toLocaleString", "valueOf", "hasOwnProperty",
   "isPrototypeOf", "propertyIsEnumerable", "__defineGetter__", "__defineSetter__",
   "__lookupGetter__", "__lookupSetter__"]

/-- The truthiness of `this.peers[id]` (lines 89, 98, 162): an entry of the
table, or a property inherited from `Object.prototype`. -/
def peerTruthy (peers : List (UserId × PeerLink)) (id : UserId) : Bool :=
  (peerGet peers id).isSome || decide (id ∈ protoNames)

/-- `this.peers[id] = v`: replace in place, or append a new key.  The one id
for which JavaScript does something else is `__proto__` (the assignment then
replaces the prototype of the table and adds no key); no handler gets there,
since the guards of lines 89, 98 and 162 find the inherited property. -/
def peerSet (peers : List (UserId × PeerLink)) (id : UserId) (v : PeerLink) :
    List (UserId × PeerLink) :=
  match peers with
  | [] => [(id, v)]
  | (k, w) :: rest => if k = id then (k, v) :: rest else (k, w) :: peerSet rest id v

/-- `delete this.peers[id]`. -/
def peerDelete (peers : List (UserId × PeerLink)) (id : UserId) : List (UserId × PeerLink) :=
  peers.filter (fun e => e.1 ≠ id)

/-- The constructor, with its defaults applied by the caller. -/
def VoiceChat.new (socketUrl : String) (roomId : RoomId) (userId : UserId)
    (iceServers : List String) (debug : Bool) : VoiceChat :=
  { socketUrl := socketUrl, roomId := roomId, userId := userId, iceServers := iceServers,
    socket := false, localStream := none, peers := [], debug := debug,
    started := false, muted := true }

/-- Method `start`. -/
def start (env : Env) (vc : VoiceChat) : Run :=
  if vc.started then ⟨vc, [], none⟩ else
  let vc1 := { vc with started := true }
  match env.getUserMedia with
  | none => ⟨vc1, [.getUserMedia], some .captureFailed⟩
  | some stream =>
    let vc2 := { vc1 with localStream := some stream, muted := false }
    if env.ioAvailable then
      ⟨{ vc2 with socket := true },
       [.getUserMedia, .ioConnect vc.socketUrl, .emit (.voiceJoin vc.roomId vc.userId)], none⟩
    else
      ⟨{ vc2 with socket := false }, [.getUserMedia], some .ioNotFound⟩

/-- Method `stop`. -/
def stop (vc : VoiceChat) : Run :=
  let closes := (vc.peers.map Prod.fst).flatMap (fun id => [Effect.close id, .removeAudioElement id])
  let stops := match vc.localStream with
    | some stream => (List.range stream.length).map Effect.stopTrack
    | none => []
  let leave := if vc.socket then
      [Effect.emit (.voiceLeave vc.roomId vc.userId), .socketDisconnect] else []
  ⟨{ vc with peers := [], localStream := none, socket := false, started := false },
   closes ++ stops ++ leave, none⟩

/-- Method `mute`. -/
def mute (vc : VoiceChat) : Run :=
  match vc.localStream with
  | none => ⟨vc, [], none⟩
  | some stream =>
    ⟨{ vc with localStream := some (stream.map (fun t => { t with enabled := false })),
               muted := true }, [], none⟩

/-- Method `unmute`. -/
def unmute (vc : VoiceChat) : Run :=
  match vc.localStream with
  | none => ⟨vc, [], none⟩
  | some stream =>
    ⟨{ vc with localStream := some (stream.map (fun t => { t with enabled := true })),
               muted := false }, [], none⟩

/-- `this.socket.emit(m)`: a `TypeError` when `this.socket` is null. -/
def emitOn (vc : VoiceChat) (tr : List Effect) (m : ClientMsg) : Run :=
  if vc.socket then ⟨vc, tr ++ [.emit m], none⟩ else ⟨vc, tr, some .typeError⟩

/-- Method `_createPeerConnection`. -/
def createPeerConnection (env : Env) (vc : VoiceChat) (peerId : UserId) (isInitiator : Bool) :
    Run :=
  let addTracks := match vc.localStream with
    | some stream => (List.range stream.length).map (Effect.addTrack peerId)
    | none => []
  let tr0 := Effect.newPeerConnection peerId :: addTracks
  let vc1 := { vc with peers := peerSet vc.peers peerId ⟨⟨none⟩, none⟩ }
  if isInitiator then
    match env.createOffer peerId with
    | none => ⟨vc1, tr0 ++ [.createOffer peerId], some .negotiationFailed⟩
    | some offer =>
      let tr1 := tr0 ++ [.createOffer peerId, .setLocalDescription peerId offer]
      if env.setLocalDescription peerId offer then
        let vc2 := { vc1 with peers := peerSet vc1.peers peerId ⟨⟨some offer⟩, none⟩ }
        emitOn vc2 tr1 (.voiceOffer peerId vc.userId offer)
      else ⟨vc1, tr1, some .negotiationFailed⟩
  else ⟨vc1, tr0, none⟩

/-- One iteration of the loop of `_handleVoiceUsers` (lines 88-91), for the
roster entry `u`. -/
def rosterIter (env : Env) (vc : VoiceChat) (u : UserId) : Run :=
  if u = vc.userId then ⟨vc, [], none⟩
  else if !peerTruthy vc.peers u then createPeerConnection env vc u true
  else ⟨vc, [], none⟩

/-- Method `_handleVoiceUsers`, run to completion: the iterations in order,
stopping at the first one that raises. -/
def handleVoiceUsers (env : Env) (vc : VoiceChat) : List UserId → Run
  | [] => ⟨vc, [], none⟩
  | u :: rest =>
    let r := rosterIter env vc u
    match r.err with
    | some e => ⟨r.st, r.trace, some e⟩
    | none =>
      let r2 := handleVoiceUsers env r.st rest
      ⟨r2.st, r.trace ++ r2.trace, r2.err⟩

/-- Method `_handleUserJoined`. -/
def handleUserJoined (env : Env) (vc : VoiceChat) (userId : UserId) : Run :=
  if userId = vc.userId then ⟨vc, [], none⟩
  else if !peerTruthy vc.peers userId then createPeerConnection env vc userId true
  else ⟨vc, [], none⟩

/-- Method `_handleUserLeft`.  For an id that names an inherited property and
has no entry the guard of line 105 holds as well, but then nothing is there to
act on: `this.peers[userId].pc` is undefined, so no transport is closed (the
`TypeError` is caught on line 106), no PeerLink has an audio element to
remove, and `delete` removes no key.  That run is the empty one, as for any
other id without an entry. -/
def handleUserLeft (vc : VoiceChat) (userId : UserId) : Run :=
  if (peerGet vc.peers userId).isSome then
    ⟨{ vc with peers := peerDelete vc.peers userId },
     [.close userId, .removeAudioElement userId], none⟩
  else ⟨vc, [], none⟩

/-- Method `_handleOffer`.  When `this.peers[from]` is an inherited property
and no entry, `this.peers[from].pc` is undefined and line 166 raises. -/
def handleOffer (env : Env) (vc : VoiceChat) (fromUser : UserId) (offer : Sdp) : Run :=
  let r0 := if !peerTruthy vc.peers fromUser
    then createPeerConnection env vc fromUser false else ⟨vc, [], none⟩
  match peerGet r0.st.peers fromUser with
  | none => ⟨r0.st, r0.trace, some .typeError⟩
  | some link =>
    let tr1 := r0.trace ++ [.setRemoteDescription fromUser offer]
    if env.setRemoteDescription fromUser offer then
      match env.createAnswer fromUser with
      | none => ⟨r0.st, tr1 ++ [.createAnswer fromUser], some .negotiationFailed⟩
      | some answer =>
        let tr2 := tr1 ++ [.createAnswer fromUser, .setLocalDescription fromUser answer]
        if env.setLocalDescription fromUser answer then
          let link1 : PeerLink := { link with pc := ⟨some answer⟩ }
          let vc2 := { r0.st with peers := peerSet r0.st.peers fromUser link1 }
          emitOn vc2 tr2 (.voiceAnswer fromUser vc.userId answer)
        else ⟨r0.st, tr2, some .negotiationFailed⟩
    else ⟨r0.st, tr1, some .negotiationFailed⟩

/-- Method `_handleAnswer`.  `this.peers[from] && this.peers[from].pc` is
undefined when there is no entry, also when `from` names an inherited
property, which has no `pc`. -/
def handleAnswer (env : Env) (vc : VoiceChat) (fromUser : UserId) (answer : Sdp) : Run :=
  match peerGet vc.peers fromUser with
  | none => ⟨vc, [], none⟩
  | some _ =>
    if env.setRemoteDescription fromUser answer
    then ⟨vc, [.setRemoteDescription fromUser answer], none⟩
    else ⟨vc, [.setRemoteDescription fromUser answer], some .negotiationFailed⟩

/-- Method `_handleRemoteCandidate`: a failing `addIceCandidate` is caught and
logged.  As in `_handleAnswer`, an inherited property has no `pc`, so only an
entry of the table gets past line 182. -/
def handleRemoteCandidate (env : Env) (vc : VoiceChat) (fromUser : UserId)
    (candidate : Candidate) : Run :=
  match peerGet vc.peers fromUser with
  | none => ⟨vc, [], none⟩
  | some _ =>
    if env.addIceCandidate fromUser candidate
    then ⟨vc, [.addIceCandidate fromUser candidate], none⟩
    else ⟨vc, [.addIceCandidate fromUser candidate], none⟩

/-- The `connectionState` of a peer connection. -/
inductive ConnState where
  | new | connecting | connected | disconnected | failed | closed
  deriving DecidableEq, Repr

/-- The callback `pc.onconnectionstatechange` of the connection made for
`peerId`. -/
def onconnectionstatechange (vc : VoiceChat) (peerId : UserId) (state : ConnState) : Run :=
  if state = .failed ∨ state = .closed ∨ state = .disconnected
  then handleUserLeft vc peerId else ⟨vc, [], none⟩

/-- The callback `pc.onicecandidate` of the connection made for `peerId`. -/
def onicecandidate (vc : VoiceChat) (peerId : UserId) (candidate : Option Candidate) : Run :=
  match candidate with
  | some c => emitOn vc [] (.voiceIceCandidate peerId vc.userId c)
  | none => ⟨vc, [], none⟩

/-- The callback `pc.ontrack` of the connection made for `peerId`. -/
def ontrack (vc : VoiceChat) (peerId : UserId) : Run :=
  match peerGet vc.peers peerId with
  | some link =>
    let link1 : PeerLink := { link with audioEl := some ("audio-remote-owl-" ++ peerId) }
    ⟨{ vc with peers := peerSet vc.peers peerId link1 }, [.attachAudio peerId], none⟩
  | none => ⟨vc, [.attachAudio peerId], some .typeError⟩

/-- The handlers registered on the socket in `start`. -/
def onServerMsg (env : Env) (vc : VoiceChat) : ServerMsg → Run
  | .voiceUsers users => handleVoiceUsers env vc users
  | .voiceUserJoined userId => handleUserJoined env vc userId
  | .voiceUserLeft userId => handleUserLeft vc userId
  | .voiceOffer f offer => handleOffer env vc f offer
  | .voiceAnswer f answer => handleAnswer env vc f answer
  | .voiceIceCandidate f candidate => handleRemoteCandidate env vc f candidate

/-! ## Relay and clients composed -/

/-- The message carried by an emission. -/
def Out.msg : Out → ServerMsg
  | .toSocket _ m => m
  | .broadcast _ _ m => m
  | .reply _ m => m

/-- A relay, the client instance behind each socket, and the log of what each
client has sent so far. -/
structure Net where
  relay : Relay
  clients : SocketId → VoiceChat
  sentBy : List (SocketId × ClientMsg)

/-- The client behind socket `s` has run a method or callback with result
`r`: its instance is replaced and what it sent is logged. -/
def clientRun (net : Net) (s : SocketId) (r : Run) : Net :=
  { net with clients := Function.update net.clients s r.st,
             sentBy := net.sentBy ++ (sent r.trace).map (fun x => (s, x)) }

/-- The client behind socket `s` handles message `m`, to completion. -/
def deliver (env : Env) (net : Net) (s : SocketId) (m : ServerMsg) : Net :=
  clientRun net s (onServerMsg env (net.clients s) m)

/-- One emission of the relay reaches each of its recipients in turn. -/
def deliverOut (env : Env) (net : Net) (o : Out) : Net :=
  (recipients net.relay o).foldl (fun n s => deliver env n s o.msg) net

/-- The relay handles message `m` of socket `s`, and each emission is handled
by the clients it reaches. -/
def relayFrom (env : Env) (net : Net) (s : SocketId) (m : ClientMsg) : Net :=
  let res := relayStep net.relay s (.msg m)
  res.2.foldl (deliverOut env) { net with relay := res.1 }

/-- The call is `io(url)`. -/
def Effect.isIoConnect : Effect → Bool
  | .ioConnect _ => true
  | _ => false

/-- The client behind socket `s` calls `start`: when it opens its socket the
relay sees the connection, and the relay handles the `voice-join` it sends.
The emissions of the relay are returned, not yet delivered. -/
def enterRoom (env : Env) (net : Net) (s : SocketId) : Net × List Out :=
  let r := start env (net.clients s)
  let relay1 := if r.trace.any Effect.isIoConnect then (connect net.relay s).1 else net.relay
  let net1 : Net := clientRun { net with relay := relay1 } s r
  (sent r.trace).foldl (fun acc m =>
    match m with
    | .voiceJoin roomId userId =>
      let res := voiceJoin acc.1.relay s roomId userId
      ({ acc.1 with relay := res.1 }, acc.2 ++ res.2)
    | _ => acc) (net1, [])

/-- The client behind socket `s` joins under the schedule in which every
handler runs to completion before the next message is handled: the roster
reply and the `voice-user-joined` broadcast are handled, one after the other,
by the clients they reach, each handler finishing before the next starts.  What
the clients send in response is logged, not yet relayed. -/
def joinRoom (env : Env) (net : Net) (s : SocketId) : Net :=
  let x := enterRoom env net s
  x.2.foldl (deliverOut env) x.1

/-- The client behind socket `s` runs the iterations of its roster loop for
the entries `users`, stopping at the first one that raises. -/
def rosterFrom (env : Env) (net : Net) (s : SocketId) : List UserId → Net
  | [] => net
  | u :: rest =>
    let r := rosterIter env (net.clients s) u
    match r.err with
    | some _ => clientRun net s r
    | none => rosterFrom env (clientRun net s r) s rest

/-- The offers socket `s` has sent to user `q`. -/
def offersFromTo (net : Net) (s : SocketId) (q : UserId) : List ClientMsg :=
  net.sentBy.filterMap (fun x =>
    match x with
    | (s1, .voiceOffer toUser f o) =>
      if s1 = s ∧ toUser = q then some (ClientMsg.voiceOffer toUser f o) else none
    | _ => none)

/-- The targets of the offers socket `s` has sent, in order. -/
def offersBy (net : Net) (s : SocketId) : List UserId :=
  net.sentBy.filterMap (fun x =>
    match x with
    | (s1, .voiceOffer toUser _ _) => if s1 = s then some toUser else none
    | _ => none)

/-- Every external operation succeeds. -/
def Env.Succeeds (env : Env) : Prop :=
  env.getUserMedia.isSome = true ∧ env.ioAvailable = true ∧
  (∀ p, (env.createOffer p).isSome = true) ∧ (∀ p, (env.createAnswer p).isSome = true) ∧
  (∀ p d, env.setLocalDescription p d = true) ∧ (∀ p d, env.setRemoteDescription p d = true) ∧
  (∀ p c, env.addIceCandidate p c = true)

/-- An environment in which every external operation succeeds. -/
def Env.allOk : Env :=
  { getUserMedia := some [⟨true, false⟩], ioAvailable := true,
    createOffer := fun _ => some "offer", createAnswer := fun _ => some "answer",
    setLocalDescription := fun _ _ => true, setRemoteDescription := fun _ _ => true,
    addIceCandidate := fun _ _ => true }

/-- Three freshly constructed sessions for users `a`, `b`, `c` of room `r`
behind sockets `sa`, `sb`, `sc`, and an empty relay mounted as `ns` says. -/
def net3 (ns : Bool) (r : RoomId) (a b c : UserId) (sa sb sc : SocketId) : Net :=
  { relay := Relay.emptyOn ns,
    clients := fun s =>
      if s = sa then VoiceChat.new "/" r a [] false
      else if s = sb then VoiceChat.new "/" r b [] false
      else if s = sc then VoiceChat.new "/" r c [] false
      else VoiceChat.new "/" "" "" [] false,
    sentBy := [] }

/-- The three sessions join in the order `sa`, `sb`, `sc`, every handler
running to completion before the next message is handled. -/
def joined3 (env : Env) (ns : Bool) (r : RoomId) (a b c : UserId) (sa sb sc : SocketId) :
    Net :=
  joinRoom env (joinRoom env (joinRoom env (net3 ns r a b c sa sb sc) sa) sb) sc

/-- The rosters (`voice-users` payloads) among `outs` that are sent to socket `s`. -/
def rosterReplies (outs : List Out) (s : SocketId) : List (List UserId) :=
  outs.filterMap (fun o =>
    match o with
    | .reply s1 (.voiceUsers users) => if s1 = s then some users else none
    | _ => none)

/-- The emission is a broadcast to a room. -/
def Out.isBroadcast : Out → Bool
  | .broadcast _ _ _ => true
  | _ => false

/-- The sessions behind `sa` and `sb` join as in `joined3`.  Then the session
behind `sc` joins, and its roster loop is interrupted after its first
iteration: the `voice-user-joined` broadcast is handled by the others, the
offer the session behind `sb` sends to `c` is relayed and handled by the
session behind `sc`, and only then the loop runs its remaining iterations. -/
def joined3Interleaved (env : Env) (ns : Bool) (r : RoomId) (a b c : UserId)
    (sa sb sc : SocketId) : Net :=
  let x := enterRoom env (joinRoom env (joinRoom env (net3 ns r a b c sa sb sc) sa) sb) sc
  let users := (rosterReplies x.2 sc).foldr (fun l acc => l ++ acc) []
  let n1 := rosterFrom env x.1 sc (users.take 1)
  let n2 := (x.2.filter Out.isBroadcast).foldl (deliverOut env) n1
  let n3 := (offersFromTo n2 sb c).foldl (fun n m => relayFrom env n sb m) n2
  rosterFrom env n3 sc (users.drop 1)

/-- The `voice-user-left` broadcasts among `outs` that are addressed to `room`. -/
def leftBroadcasts (outs : List Out) (room : RoomId) : List Out :=
  outs.filter (fun o =>
    match o with
    | .broadcast r _ (.voiceUserLeft _) => r = room
    | _ => false)

/-- Socket `s` joins room `r1` and then room `r2`, both times as user `u`. -/
def joinTwo (st : Relay) (s : SocketId) (r1 r2 : RoomId) (u : UserId) : Relay :=
  (voiceJoin (voiceJoin st s r1 u).1 s r2 u).1

/-- An environment in which `createOffer` raises on the connection made for
peer `p` and every other operation succeeds. -/
def Env.offerFailsFor (p : UserId) : Env :=
  { Env.allOk with createOffer := fun q => if q = p then none else some "offer" }

/-- An environment in which `addIceCandidate` and `setRemoteDescription` raise
and every other operation succeeds. -/
def Env.remoteFails : Env :=
  { Env.allOk with setRemoteDescription := fun _ _ => false,
                   addIceCandidate := fun _ _ => false }

/-- The session of user `u` in room `r` after a successful `start`. -/
def startedSession (r : RoomId) (u : UserId) : VoiceChat :=
  (start Env.allOk (VoiceChat.new "/" r u [] false)).st

/-! ## Event sequences -/

/-- Everything that can happen to a `VoiceChat` instance: a call of one of its
public methods, a message arriving on the socket, or a callback of one of its
peer connections. -/
inductive ClientEvent where
  | start
  | stop
  | mute
  | unmute
  | server (m : ServerMsg)
  | connectionStateChange (peerId : UserId) (state : ConnState)
  | iceCandidate (peerId : UserId) (candidate : Option Candidate)
  | track (peerId : UserId)
  deriving DecidableEq, Repr

/-- The method or callback an event runs. -/
def clientStep (env : Env) (vc : VoiceChat) : ClientEvent → Run
  | .start => start env vc
  | .stop => stop vc
  | .mute => mute vc
  | .unmute => unmute vc
  | .server m => onServerMsg env vc m
  | .connectionStateChange peerId state => onconnectionstatechange vc peerId state
  | .iceCandidate peerId candidate => onicecandidate vc peerId candidate
  | .track peerId => ontrack vc peerId

/-- The instance after a sequence of events, each with the outcomes of the
external operations at that time.  An error escaping one callback does not stop
later callbacks from running. -/
def runClient (vc : VoiceChat) : List (Env × ClientEvent) → VoiceChat
  | [] => vc
  | (env, ev) :: rest => runClient (clientStep env vc ev).st rest

/-- The keys of `this.peers` (`Object.keys(this.peers)`). -/
def peerKeys (peers : List (UserId × PeerLink)) : List UserId :=
  peers.map Prod.fst

/-- One emission in the output trace of the relay: the socket whose event was
being handled, that event, the emission, and the sockets it reached. -/
structure Emission where
  src : SocketId
  ev : RelayEvent
  out : Out
  rcpt : List SocketId
  deriving DecidableEq, Repr

/-- The relay handles one event of socket `x.1` and appends what it emits to
the trace.  Every handler updates the room table before it emits, so the
recipients are read from the state after the handler. -/
def traceStep (acc : Relay × List Emission) (x : SocketId × RelayEvent) :
    Relay × List Emission :=
  let res := relayStep acc.1 x.1 x.2
  (res.1, acc.2 ++ res.2.map (fun o => ⟨x.1, x.2, o, recipients res.1 o⟩))

/-- The relay state and output trace after a sequence of events. -/
def relayRun (acc : Relay × List Emission) (evs : List (SocketId × RelayEvent)) :
    Relay × List Emission :=
  evs.foldl traceStep acc

/-- The emission is the roster reply to the join of room `r` by socket `s`. -/
def Emission.isRosterReply (e : Emission) (s : SocketId) (r : RoomId) : Prop :=
  e.src = s ∧ ∃ u users, e.ev = .msg (.voiceJoin r u) ∧ e.out = .reply s (.voiceUsers users)

/-- Every join and leave of a socket names the user id `owner` assigns to that
socket. -/
def Disciplined (owner : SocketId → UserId) (x : SocketId × RelayEvent) : Prop :=
  match x.2 with
  | .msg (.voiceJoin _ u) => u = owner x.1
  | .msg (.voiceLeave _ u) => u = owner x.1
  | _ => True

/-- An assignment of distinct user ids to sockets: socket `n` gets the id
made of `n + 1` letters u. -/
def unaryOwner (s : SocketId) : UserId :=
  String.mk (List.replicate (s + 1) 'u')

/-- An environment in which capture is refused. -/
def Env.noCapture : Env := { Env.allOk with getUserMedia := none }

/-- An environment in which the socket.io client is missing. -/
def Env.noIo : Env := { Env.allOk with ioAvailable := false }

/-- The two maps agree with an assignment `owner` of user ids to sockets:
metadata records the owner's id, and a user id maps to a socket exactly when
that socket has metadata and the id is its own. -/
def RegistryInv (owner : SocketId → UserId) (st : Relay) : Prop :=
  (∀ s m, st.socketMeta s = some m → m.userId = owner s) ∧
  (∀ u s, st.userSocket u = some s ↔ ((st.socketMeta s).isSome = true ∧ u = owner s))

/-- The emission is a `voice-user-joined` notification for room `r` that
reached socket `s`. -/
def Emission.isJoinedNotice (e : Emission) (s : SocketId) (r : RoomId) : Prop :=
  s ∈ e.rcpt ∧ ∃ y u, e.out = .broadcast r y (.voiceUserJoined u)

/-- Every member of a room is there by its connection (the room named by
its own id) or has its roster reply for that room in the trace. -/
def RosterSeen (acc : Relay × List Emission) : Prop :=
  ∀ s r, s ∈ acc.1.rooms r → r = idRoom s ∨ ∃ e ∈ acc.2, e.isRosterReply s r

/-- Every `voice-user-joined` notification in the trace that reached a socket,
for a room other than the one named by the id of that socket, comes after a
roster reply to that socket for the same room. -/
def RosterFirst (tr : List Emission) : Prop :=
  ∀ s r pre e post, tr = pre ++ e :: post → e.isJoinedNotice s r → r ≠ idRoom s →
    ∃ e1 ∈ pre, e1.isRosterReply s r

/-- The room named by the id of a socket has no member but that socket. -/
def OwnRooms (st : Relay) : Prop :=
  ∀ s x, x ∈ st.rooms (idRoom s) → x = s

/-- The event is not a `voice-join` into a room named by the id of a socket. -/
def JoinsPlainRoom (x : SocketId × RelayEvent) : Prop :=
  match x.2 with
  | .msg (.voiceJoin r _) => ∀ s, r ≠ idRoom s
  | _ => True

/-- The offers addressed to `q` among the messages sent in a trace. -/
def offersTo (tr : List Effect) (q : UserId) : List ClientMsg :=
  (sent tr).filter (fun m =>
    match m with
    | .voiceOffer t _ _ => t = q
    | _ => false)

/-- A property of the PeerLink table that survives every write the class can
make: emptying it, storing a new key among the `allowed` ones, overwriting an
existing key, deleting a key. -/
structure TableInv (allowed : UserId → Prop) (Good : List (UserId × PeerLink) → Prop) :
    Prop where
  nil : Good []
  add : ∀ l p v, Good l → allowed p → Good (peerSet l p v)
  upd : ∀ l p v, Good l → (peerGet l p).isSome = true → Good (peerSet l p v)
  del : ∀ l p, Good l → Good (peerDelete l p)


/-- The state `st1` is the state `st` without the membership of socket `s1`
in room `r`, without its metadata, and with some other mapping for user `u`;
everything else agrees. -/
def FreshRel (s1 : SocketId) (r : RoomId) (u : UserId) (st st1 : Relay) : Prop :=
  (∀ x, st1.rooms x = if x = r then setDelete (st.rooms x) s1 else st.rooms x) ∧
  st1.socketMeta = Function.update st.socketMeta s1 none ∧
  (∀ v, v ≠ u → st1.userSocket v = st.userSocket v) ∧
  st1.namespaced = st.namespaced

/-! ## Basic facts about the containers -/

theorem mem_setAdd_self (l : List SocketId) (s : SocketId) : s ∈ setAdd l s := by
  unfold setAdd
  by_cases h : s ∈ l <;> simp [h]

theorem not_mem_setDelete (l : List SocketId) (s : SocketId) : s ∉ setDelete l s := by
  simp [setDelete]

theorem setDelete_setAdd_of_not_mem (l : List SocketId) (s : SocketId) (h : s ∉ l) :
    setDelete (setAdd l s) s = l := by
  unfold setAdd setDelete
  rw [if_neg h, List.filter_append]
  simp
  intro a ha e
  exact h (e ▸ ha)

theorem idRoom_injective : Function.Injective idRoom := by
  intro a b h
  have h1 := congrArg String.length h
  simpa [idRoom, String.length] using h1

theorem idRoom_inj {a b : SocketId} : idRoom a = idRoom b ↔ a = b :=
  idRoom_injective.eq_iff

/-! ## The relay: roster on join -/

theorem empty_not_mem_roster (st : Relay) (r : RoomId) : ("" : UserId) ∉ roster st r := by
  simp only [roster, List.mem_filterMap, not_exists, not_and]
  intro x _
  cases st.socketMeta x with
  | none => simp
  | some m =>
    by_cases hu : m.userId = ""
    · simp [hu]
    · simp [hu]

/-- C1 (as the code has it): when the module is mounted on a namespace, the
join handler sends the joining socket one roster, which is the roster of the
room after the joining socket was added; it contains the joining user's own id
whenever that id is non-empty, and leaves the joiner out when the id is empty.
When the module is mounted on the server object (the default), the handler
emits nothing and raises. -/
theorem voiceJoin_roster_contains_self (st : Relay) (s : SocketId) (r : RoomId) (u : UserId) :
    (st.namespaced = true →
      (voiceJoin st s r u).2 =
        [Out.reply s (.voiceUsers (roster (voiceJoin st s r u).1 r)),
         Out.broadcast r s (.voiceUserJoined u)] ∧
      rosterReplies (voiceJoin st s r u).2 s = [roster (voiceJoin st s r u).1 r] ∧
      (u ≠ "" → u ∈ roster (voiceJoin st s r u).1 r) ∧
      (u = "" → u ∉ roster (voiceJoin st s r u).1 r)) ∧
    (st.namespaced = false →
      (voiceJoin st s r u).2 = [] ∧ rosterReplies (voiceJoin st s r u).2 s = [] ∧
      voiceJoinRaises st = true) := by
  constructor
  · intro hns
    refine ⟨by simp [voiceJoin, hns], by simp [voiceJoin, hns, rosterReplies], ?_, ?_⟩
    · intro hu
      simp only [roster, voiceJoin, hns, if_true, List.mem_filterMap]
      refine ⟨s, ?_, ?_⟩
      · simpa using mem_setAdd_self (st.rooms r) s
      · simp [hu]
    · intro hu
      rw [hu]
      exact empty_not_mem_roster _ _
  · intro hns
    simp [voiceJoin, hns, rosterReplies, voiceJoinRaises]

/-- C1, the spec scenario on the code: on a namespace, joining the empty room
"r1" as "u1" is answered with a roster that contains "u1"; on the default
mount the same join is answered with nothing. -/
theorem voiceJoin_roster_contains_self_witness :
    "u1" ∈ roster (voiceJoin Relay.empty 1 "r1" "u1").1 "r1" ∧
    rosterReplies (voiceJoin Relay.empty 1 "r1" "u1").2 1 =
      [roster (voiceJoin Relay.empty 1 "r1" "u1").1 "r1"] ∧
    (voiceJoin (Relay.emptyOn false) 1 "r1" "u1").2 = [] :=
  ⟨((voiceJoin_roster_contains_self Relay.empty 1 "r1" "u1").1 rfl).2.2.1 (by decide),
   ((voiceJoin_roster_contains_self Relay.empty 1 "r1" "u1").1 rfl).2.1,
   ((voiceJoin_roster_contains_self (Relay.emptyOn false) 1 "r1" "u1").2 rfl).1⟩

/-- C1 fails as stated: on a namespace, the first user "u1" joining the empty
room "r1" receives the roster ["u1"], not the empty roster, and "u2" joining
next receives ["u1", "u2"]; both rosters contain the joining user's own id. -/
theorem voiceJoin_roster_excludes_self_counterexample :
    rosterReplies (voiceJoin Relay.empty 1 "r1" "u1").2 1 = [["u1"]] ∧
    rosterReplies (voiceJoin (voiceJoin Relay.empty 1 "r1" "u1").1 2 "r1" "u2").2 2
      = [["u1", "u2"]] := by
  decide

/-! ## Role assignment: who sends offers -/

theorem sent_nil : sent [] = [] := rfl

theorem sent_cons (e : Effect) (tr : List Effect) :
    sent (e :: tr) = (match e with | .emit m => [m] | _ => []) ++ sent tr := by
  cases e <;> simp [sent, List.filterMap_cons]

theorem sent_append (t1 t2 : List Effect) : sent (t1 ++ t2) = sent t1 ++ sent t2 := by
  simp [sent, List.filterMap_append]

theorem sent_addTracks (p : UserId) (l : List Nat) : sent (l.map (Effect.addTrack p)) = [] := by
  induction l with
  | nil => rfl
  | cons x xs ih => simp [sent_cons, ih]

theorem Env.Succeeds.offer {env : Env} (h : env.Succeeds) :
    ∃ (ms : MediaStream) (f : UserId → Sdp), env.getUserMedia = some ms ∧
      env.ioAvailable = true ∧
      (∀ p, env.createOffer p = some (f p)) ∧ ∀ p d, env.setLocalDescription p d = true := by
  obtain ⟨h1, h2, h3, _, h5, _, _⟩ := h
  obtain ⟨ms, hms⟩ := Option.isSome_iff_exists.1 h1
  refine ⟨ms, fun p => (env.createOffer p).getD "", hms, h2, fun p => ?_, h5⟩
  obtain ⟨x, hx⟩ := Option.isSome_iff_exists.1 (h3 p)
  simp [hx]

theorem Env.Succeeds.answer {env : Env} (h : env.Succeeds) :
    ∃ g : UserId → Sdp, (∀ p, env.createAnswer p = some (g p)) ∧
      ∀ p d, env.setRemoteDescription p d = true := by
  obtain ⟨_, _, _, h4, _, h6, _⟩ := h
  refine ⟨fun p => (env.createAnswer p).getD "", fun p => ?_, h6⟩
  obtain ⟨x, hx⟩ := Option.isSome_iff_exists.1 (h4 p)
  simp [hx]

theorem Env.allOk_succeeds : Env.allOk.Succeeds := by
  simp [Env.Succeeds, Env.allOk]

set_option maxHeartbeats 4000000 in
theorem joined3_atomic (env : Env) (henv : env.Succeeds) (r : RoomId) (a b c : UserId)
    (sa sb sc : SocketId) (hab : a ≠ b) (hac : a ≠ c) (hbc : b ≠ c)
    (ha : a ≠ "") (hb : b ≠ "") (hc : c ≠ "")
    (pa : a ∉ protoNames) (pb : b ∉ protoNames) (pc : c ∉ protoNames)
    (hr : ∀ s, r ≠ idRoom s)
    (sab : sa ≠ sb) (sac : sa ≠ sc) (sbc : sb ≠ sc) :
    offersBy (joined3 env true r a b c sa sb sc) sa = [b, c] ∧
    offersBy (joined3 env true r a b c sa sb sc) sb = [a, c] ∧
    offersBy (joined3 env true r a b c sa sb sc) sc = [a, b] := by
  obtain ⟨ms, f, h1, h2, h3, h4⟩ := henv.offer
  have hba := hab.symm
  have hca := hac.symm
  have hcb := hbc.symm
  have sba := sab.symm
  have sca := sac.symm
  have scb := sbc.symm
  have hr' : ∀ s, idRoom s ≠ r := fun s => (hr s).symm
  simp [joined3, joinRoom, enterRoom, clientRun, connect, Effect.isIoConnect, net3, start,
    VoiceChat.new, h1, h2, sent_cons, sent_append,
    sent_addTracks, sent_nil, voiceJoin, deliverOut,
    recipients, deliver, onServerMsg, Relay.emptyOn, setAdd, roster, Function.update_apply,
    handleVoiceUsers, rosterIter, handleUserJoined, peerTruthy, createPeerConnection, h3, h4,
    emitOn, peerGet, peerSet, Out.msg, offersBy, idRoom_inj, hr, hr', *]

set_option maxHeartbeats 4000000 in
theorem joined3_interleaved (env : Env) (henv : env.Succeeds) (r : RoomId) (a b c : UserId)
    (sa sb sc : SocketId) (hab : a ≠ b) (hac : a ≠ c) (hbc : b ≠ c)
    (ha : a ≠ "") (hb : b ≠ "") (hc : c ≠ "")
    (pa : a ∉ protoNames) (pb : b ∉ protoNames) (pc : c ∉ protoNames)
    (hr : ∀ s, r ≠ idRoom s)
    (sab : sa ≠ sb) (sac : sa ≠ sc) (sbc : sb ≠ sc) :
    offersBy (joined3Interleaved env true r a b c sa sb sc) sa = [b, c] ∧
    offersBy (joined3Interleaved env true r a b c sa sb sc) sb = [a, c] ∧
    offersBy (joined3Interleaved env true r a b c sa sb sc) sc = [a] := by
  obtain ⟨ms, f, h1, h2, h3, h4⟩ := henv.offer
  obtain ⟨g, h5, h6⟩ := henv.answer
  have hba := hab.symm
  have hca := hac.symm
  have hcb := hbc.symm
  have sba := sab.symm
  have sca := sac.symm
  have scb := sbc.symm
  have hr' : ∀ s, idRoom s ≠ r := fun s => (hr s).symm
  simp [joined3Interleaved, rosterFrom, rosterReplies, Out.isBroadcast, offersFromTo, relayFrom,
    relayStep, voiceOffer, handleOffer,
    joinRoom, enterRoom, clientRun, connect, Effect.isIoConnect, net3, start,
    VoiceChat.new, h1, h2, sent_cons, sent_append,
    sent_addTracks, sent_nil, voiceJoin, deliverOut,
    recipients, deliver, onServerMsg, Relay.emptyOn, setAdd, roster, Function.update_apply,
    handleVoiceUsers, rosterIter, handleUserJoined, peerTruthy, createPeerConnection, h3, h4, h5,
    h6, emitOn, peerGet, peerSet, Out.msg, offersBy, idRoom_inj, hr, hr', *]

theorem joinRoom_default (env : Env) (net : Net) (s : SocketId)
    (hns : net.relay.namespaced = false) :
    (joinRoom env net s).relay.namespaced = false ∧
    ∀ q, offersBy (joinRoom env net s) q = offersBy net q := by
  unfold joinRoom enterRoom start
  by_cases h0 : (net.clients s).started = true
  · simp [h0, clientRun, sent_nil, hns, offersBy]
  · cases h1 : env.getUserMedia with
    | none => simp [h0, h1, clientRun, sent_cons, sent_nil, hns, offersBy, Effect.isIoConnect]
    | some ms =>
      cases h2 : env.ioAvailable with
      | false =>
        simp [h0, h1, h2, clientRun, sent_cons, sent_nil, hns, offersBy, Effect.isIoConnect]
      | true =>
        simp [h0, h1, h2, clientRun, sent_cons, sent_nil, hns, offersBy, Effect.isIoConnect,
          connect, voiceJoin]

theorem joined3_default (env : Env) (r : RoomId) (a b c : UserId) (sa sb sc : SocketId)
    (q : SocketId) : offersBy (joined3 env false r a b c sa sb sc) q = [] := by
  have h0 : (net3 false r a b c sa sb sc).relay.namespaced = false := rfl
  have h1 := joinRoom_default env _ sa h0
  have h2 := joinRoom_default env _ sb h1.1
  have h3 := joinRoom_default env _ sc h2.1
  unfold joined3
  rw [h3.2, h2.2, h1.2]
  rfl

theorem ne_idRoom_of_head (r : RoomId) (hr : r.data.head? ≠ some '#') (s : SocketId) :
    r ≠ idRoom s := by
  intro h
  apply hr
  rw [h]
  simp [idRoom, List.replicate_succ]

/-- C2 (as the code has it): the relay is mounted on a namespace, A, B, C
have distinct non-empty user ids that name no property of `Object.prototype`,
the room is not named like a socket id, and every external operation succeeds.
When every handler runs to completion before the next message is handled, B
offers to A (from its roster) and later to C (on `voice-user-joined`), C offers
to A and B (from its roster), and A offers to B and to C (on
`voice-user-joined`): both sides of every pair send an offer.  When instead C
handles the offer of B between the first and the second iteration of its
roster loop, C offers to A only, and A and B offer as before.  On the default
mount nobody sends any offer. -/
theorem joined3_offers (env : Env) (henv : env.Succeeds) (r : RoomId) (a b c : UserId)
    (sa sb sc : SocketId) (hab : a ≠ b) (hac : a ≠ c) (hbc : b ≠ c)
    (ha : a ≠ "") (hb : b ≠ "") (hc : c ≠ "")
    (pa : a ∉ protoNames) (pb : b ∉ protoNames) (pc : c ∉ protoNames)
    (hr : ∀ s, r ≠ idRoom s)
    (sab : sa ≠ sb) (sac : sa ≠ sc) (sbc : sb ≠ sc) :
    (offersBy (joined3 env true r a b c sa sb sc) sa = [b, c] ∧
     offersBy (joined3 env true r a b c sa sb sc) sb = [a, c] ∧
     offersBy (joined3 env true r a b c sa sb sc) sc = [a, b]) ∧
    (offersBy (joined3Interleaved env true r a b c sa sb sc) sa = [b, c] ∧
     offersBy (joined3Interleaved env true r a b c sa sb sc) sb = [a, c] ∧
     offersBy (joined3Interleaved env true r a b c sa sb sc) sc = [a]) ∧
    (∀ q, offersBy (joined3 env false r a b c sa sb sc) q = []) :=
  ⟨joined3_atomic env henv r a b c sa sb sc hab hac hbc ha hb hc pa pb pc hr sab sac sbc,
   joined3_interleaved env henv r a b c sa sb sc hab hac hbc ha hb hc pa pb pc hr sab sac sbc,
   joined3_default env r a b c sa sb sc⟩

/-- C2 instance: users "a", "b", "c" behind sockets 1, 2, 3 in room "r". -/
theorem joined3_offers_witness :
    Env.allOk.Succeeds ∧
    offersBy (joined3 Env.allOk true "r" "a" "b" "c" 1 2 3) 1 = ["b", "c"] ∧
    offersBy (joined3 Env.allOk true "r" "a" "b" "c" 1 2 3) 2 = ["a", "c"] ∧
    offersBy (joined3 Env.allOk true "r" "a" "b" "c" 1 2 3) 3 = ["a", "b"] ∧
    offersBy (joined3Interleaved Env.allOk true "r" "a" "b" "c" 1 2 3) 3 = ["a"] :=
  have h := joined3_offers Env.allOk Env.allOk_succeeds "r" "a" "b" "c" 1 2 3
    (by decide) (by decide) (by decide) (by decide) (by decide) (by decide)
    (by decide) (by decide) (by decide) (ne_idRoom_of_head "r" (by decide))
    (by decide) (by decide) (by decide)
  ⟨Env.allOk_succeeds, h.1.1, h.1.2.1, h.1.2.2, h.2.1.2.2⟩

/-- C2 fails as stated: with A = "a", B = "b", C = "c" joining room "r" in
that order on a namespace, every handler running to completion, A does send
offers (to B and to C), and B sends two offers, not one; A sends offers as
well when the roster loop of C is interrupted by the offer of B. -/
theorem joined3_single_initiator_counterexample :
    offersBy (joined3 Env.allOk true "r" "a" "b" "c" 1 2 3) 1 ≠ [] ∧
    "c" ∈ offersBy (joined3 Env.allOk true "r" "a" "b" "c" 1 2 3) 2 ∧
    (offersBy (joined3 Env.allOk true "r" "a" "b" "c" 1 2 3) 2).length = 2 ∧
    offersBy (joined3Interleaved Env.allOk true "r" "a" "b" "c" 1 2 3) 1 ≠ [] := by
  decide

/-! ## The relay: disconnect -/

theorem setDelete_setAdd (l : List SocketId) (s : SocketId) :
    setDelete (setAdd l s) s = setDelete l s := by
  unfold setAdd setDelete
  by_cases h : s ∈ l <;> simp [h, List.filter_append]

theorem setDelete_idem (l : List SocketId) (s : SocketId) :
    setDelete (setDelete l s) s = setDelete l s := by
  simp [setDelete, List.filter_filter]

theorem mem_setDelete {l : List SocketId} {s x : SocketId} :
    x ∈ setDelete l s ↔ x ∈ l ∧ x ≠ s := by
  simp [setDelete]

theorem mem_setAdd {l : List SocketId} {s x : SocketId} :
    x ∈ setAdd l s ↔ x ∈ l ∨ x = s := by
  unfold setAdd
  by_cases h : s ∈ l
  · simp only [h, if_true]
    constructor
    · exact Or.inl
    · rintro (h1 | h1)
      · exact h1
      · exact h1 ▸ h
  · simp [h]

theorem voiceJoin_fst (st : Relay) (s : SocketId) (r : RoomId) (u : UserId) :
    (voiceJoin st s r u).1 =
      { st with rooms := Function.update st.rooms r (setAdd (st.rooms r) s),
                userSocket := Function.update st.userSocket u (some s),
                socketMeta := Function.update st.socketMeta s (some ⟨r, u⟩) } := by
  unfold voiceJoin
  split <;> rfl

/-- A user id that no socket of the room is registered with is not in the
room's roster. -/
theorem not_mem_roster (st : Relay) (room : RoomId) (u : UserId)
    (h : ∀ x ∈ st.rooms room, ∀ m, st.socketMeta x = some m → m.userId ≠ u) :
    u ∉ roster st room := by
  simp only [roster, List.mem_filterMap, not_exists, not_and]
  intro x hx
  cases hm : st.socketMeta x with
  | none => simp
  | some m =>
    have := h x hx m hm
    by_cases hu : m.userId = "" <;> simp [hu, this]

/-- C3 (as the code has it): a session that joined rooms `r1` and then `r2`
as user `u` and disconnects causes exactly one `voice-user-left` broadcast, for
the room joined last (`r2`), delivered to the other members of `r2`, and none
for `r1`; afterwards the session is a member of neither room, `u` is in
neither roster (no other session being registered as `u`), and the registry
holds no entry for `u` or for the session. -/
theorem disconnect_joinTwo (st : Relay) (s : SocketId) (r1 r2 : RoomId) (u : UserId)
    (hr : r1 ≠ r2)
    (hu : ∀ x m, x ≠ s → st.socketMeta x = some m → m.userId ≠ u) :
    (disconnect (joinTwo st s r1 r2 u) s).2 = [Out.broadcast r2 s (.voiceUserLeft u)] ∧
    leftBroadcasts (disconnect (joinTwo st s r1 r2 u) s).2 r1 = [] ∧
    recipients (disconnect (joinTwo st s r1 r2 u) s).1 (Out.broadcast r2 s (.voiceUserLeft u))
      = setDelete (st.rooms r2) s ∧
    s ∉ (disconnect (joinTwo st s r1 r2 u) s).1.rooms r1 ∧
    s ∉ (disconnect (joinTwo st s r1 r2 u) s).1.rooms r2 ∧
    u ∉ roster (disconnect (joinTwo st s r1 r2 u) s).1 r1 ∧
    u ∉ roster (disconnect (joinTwo st s r1 r2 u) s).1 r2 ∧
    (disconnect (joinTwo st s r1 r2 u) s).1.userSocket u = none ∧
    (disconnect (joinTwo st s r1 r2 u) s).1.socketMeta s = none := by
  have hmeta : (leaveAll (joinTwo st s r1 r2 u) s).socketMeta s = some ⟨r2, u⟩ := by
    simp [leaveAll, joinTwo, voiceJoin_fst]
  have hd : disconnect (joinTwo st s r1 r2 u) s =
      ({ leaveAll (joinTwo st s r1 r2 u) s with
          userSocket := Function.update (leaveAll (joinTwo st s r1 r2 u) s).userSocket u none,
          socketMeta := Function.update (leaveAll (joinTwo st s r1 r2 u) s).socketMeta s none },
        [Out.broadcast r2 s (.voiceUserLeft u)]) := by
    simp only [disconnect, hmeta]
  rw [hd]
  have hroster : ∀ room, u ∉ roster
      ({ leaveAll (joinTwo st s r1 r2 u) s with
          userSocket := Function.update (leaveAll (joinTwo st s r1 r2 u) s).userSocket u none,
          socketMeta := Function.update (leaveAll (joinTwo st s r1 r2 u) s).socketMeta s none } :
        Relay) room := by
    intro room
    apply not_mem_roster
    intro x hx m hm
    have hxs : x ≠ s := by
      simp only [leaveAll] at hx
      exact (mem_setDelete.1 hx).2
    simp only [leaveAll, joinTwo, voiceJoin_fst, Function.update_apply, if_neg hxs] at hm
    exact hu x m hxs hm
  refine ⟨rfl, ?_, ?_, ?_, ?_, hroster r1, hroster r2, ?_, ?_⟩
  · simp [leftBroadcasts, hr.symm]
  · simp only [recipients, leaveAll, joinTwo, voiceJoin_fst, Function.update_apply, if_true]
    have : setDelete (setDelete (setAdd (if r2 = r1 then setAdd (st.rooms r1) s else st.rooms r2) s) s) s
        = setDelete (st.rooms r2) s := by
      rw [if_neg hr.symm, setDelete_idem, setDelete_setAdd]
    simpa [setDelete] using this
  · simp only [leaveAll]; exact not_mem_setDelete _ _
  · simp only [leaveAll]; exact not_mem_setDelete _ _
  · simp
  · simp

/-- C3 instance: socket 1 is in "R1" as "u0"; socket 2 joins "R1" and "R2" as
"u" and disconnects. -/
theorem disconnect_joinTwo_witness :
    (disconnect (joinTwo (voiceJoin Relay.empty 1 "R1" "u0").1 2 "R1" "R2" "u") 2).2
      = [Out.broadcast "R2" 2 (.voiceUserLeft "u")] ∧
    "u" ∉ roster (disconnect (joinTwo (voiceJoin Relay.empty 1 "R1" "u0").1 2 "R1" "R2" "u") 2).1
      "R1" := by
  have h := disconnect_joinTwo (voiceJoin Relay.empty 1 "R1" "u0").1 2 "R1" "R2" "u"
    (by decide) (by
      intro x m _ hm
      by_cases hx1 : x = 1
      · subst hx1
        simp [voiceJoin_fst, Relay.empty, Relay.emptyOn] at hm
        subst hm
        decide
      · simp [voiceJoin_fst, Relay.empty, Relay.emptyOn, Function.update_apply, hx1] at hm)
  exact ⟨h.1, h.2.2.2.2.2.1⟩

/-- C3 fails as stated: socket 1 is in "R1" as "u0"; socket 2 joins "R1" and
then "R2" as "u" and disconnects.  The handler emits one broadcast, for "R2";
there is none for "R1", although socket 1 remains a member of "R1". -/
theorem disconnect_two_rooms_counterexample :
    leftBroadcasts
      (disconnect (joinTwo (voiceJoin Relay.empty 1 "R1" "u0").1 2 "R1" "R2" "u") 2).2 "R1" = [] ∧
    (disconnect (joinTwo (voiceJoin Relay.empty 1 "R1" "u0").1 2 "R1" "R2" "u") 2).2
      = [Out.broadcast "R2" 2 (.voiceUserLeft "u")] ∧
    (disconnect (joinTwo (voiceJoin Relay.empty 1 "R1" "u0").1 2 "R1" "R2" "u") 2).1.rooms "R1"
      = [1] := by
  decide


/-! ## The relay: forwarding -/

theorem ownRooms_step (st : Relay) (x : SocketId × RelayEvent) (h : OwnRooms st)
    (hx : JoinsPlainRoom x) : OwnRooms (relayStep st x.1 x.2).1 := by
  obtain ⟨s, ev⟩ := x
  intro t y hy
  cases ev with
  | connect =>
    simp only [relayStep, connect, Function.update_apply, idRoom_inj] at hy
    split at hy
    · rename_i hts
      rcases mem_setAdd.1 hy with h1 | h1
      · exact h s y h1 ▸ hts.symm ▸ rfl
      · rw [h1, hts]
    · exact h t y hy
  | disconnect =>
    unfold relayStep disconnect at hy
    dsimp only at hy
    split at hy
    · exact h t y (mem_setDelete.1 hy).1
    · exact h t y (mem_setDelete.1 hy).1
  | msg m =>
    cases m with
    | voiceJoin r u =>
      have hr : ∀ s', r ≠ idRoom s' := hx
      simp only [relayStep, voiceJoin_fst, Function.update_apply, (hr t).symm, if_false] at hy
      exact h t y hy
    | voiceLeave r u =>
      simp only [relayStep, voiceLeave, Function.update_apply] at hy
      split at hy
      · rename_i hr
        rw [← hr] at hy
        exact h t y (mem_setDelete.1 hy).1
      · exact h t y hy
    | voiceOffer a b c =>
      simp only [relayStep, voiceOffer] at hy
      split at hy <;> exact h t y hy
    | voiceAnswer a b c =>
      simp only [relayStep, voiceAnswer] at hy
      split at hy <;> exact h t y hy
    | voiceIceCandidate a b c =>
      simp only [relayStep, voiceIceCandidate] at hy
      split at hy <;> exact h t y hy

theorem ownRooms_run (evs : List (SocketId × RelayEvent)) :
    ∀ acc : Relay × List Emission, (∀ x ∈ evs, JoinsPlainRoom x) → OwnRooms acc.1 →
      OwnRooms (relayRun acc evs).1 := by
  induction evs with
  | nil => intro acc _ h; exact h
  | cons x rest ih =>
    intro acc hp h
    simp only [relayRun, List.foldl_cons]
    apply ih
    · intro y hy; exact hp y (List.mem_cons_of_mem _ hy)
    · exact ownRooms_step acc.1 x h (hp x (List.mem_cons_self _ _))

/-- C4 (as the code has it): an offer, answer or candidate addressed to a
registered user is forwarded as exactly one emission, with the same kind,
sender and payload, addressed to the room named by the id of the registered
socket; addressed to an unregistered user it produces no emission.  The relay
state is unchanged either way, whoever the sending socket is.  In a state
reached from the empty relay by events none of which is a `voice-join` into a
room named like a socket id, the emission reaches no socket but the registered
one. -/
theorem relay_forward (st : Relay) (s : SocketId) (toUser fromUser : UserId) (payload : String) :
    (∀ sid, st.userSocket toUser = some sid →
      relayStep st s (.msg (.voiceOffer toUser fromUser payload))
        = (st, [Out.toSocket sid (.voiceOffer fromUser payload)]) ∧
      relayStep st s (.msg (.voiceAnswer toUser fromUser payload))
        = (st, [Out.toSocket sid (.voiceAnswer fromUser payload)]) ∧
      relayStep st s (.msg (.voiceIceCandidate toUser fromUser payload))
        = (st, [Out.toSocket sid (.voiceIceCandidate fromUser payload)]) ∧
      (∀ m, recipients st (Out.toSocket sid m) = st.rooms (idRoom sid)) ∧
      (∀ ns evs, (∀ x ∈ evs, JoinsPlainRoom x) → st = (relayRun (Relay.emptyOn ns, []) evs).1 →
        ∀ m x, x ∈ recipients st (Out.toSocket sid m) → x = sid)) ∧
    (st.userSocket toUser = none →
      relayStep st s (.msg (.voiceOffer toUser fromUser payload)) = (st, []) ∧
      relayStep st s (.msg (.voiceAnswer toUser fromUser payload)) = (st, []) ∧
      relayStep st s (.msg (.voiceIceCandidate toUser fromUser payload)) = (st, [])) := by
  constructor
  · intro sid h
    refine ⟨?_, ?_, ?_, fun _ => rfl, ?_⟩
    · simp [relayStep, voiceOffer, h]
    · simp [relayStep, voiceAnswer, h]
    · simp [relayStep, voiceIceCandidate, h]
    · intro ns evs hp hst m x hx
      have hown : OwnRooms st := by
        rw [hst]
        apply ownRooms_run evs _ hp
        intro t y hy
        simp [Relay.emptyOn] at hy
      exact hown sid x hx
  · intro h
    simp [relayStep, voiceOffer, voiceAnswer, voiceIceCandidate, h]

/-- C4 instance: socket 1 connects and registers as "u1", "u9" is not
registered; socket 2 sends an offer to each.  The offer for "u1" reaches
socket 1 and nobody else. -/
theorem relay_forward_witness :
    (relayStep (relayRun (Relay.empty, []) [(1, .connect), (1, .msg (.voiceJoin "r1" "u1"))]).1 2
      (.msg (.voiceOffer "u1" "u2" "sdp"))).2 = [Out.toSocket 1 (.voiceOffer "u2" "sdp")] ∧
    (∀ x, x ∈ recipients
        (relayRun (Relay.empty, []) [(1, .connect), (1, .msg (.voiceJoin "r1" "u1"))]).1
        (Out.toSocket 1 (.voiceOffer "u2" "sdp")) → x = 1) ∧
    recipients (relayRun (Relay.empty, []) [(1, .connect), (1, .msg (.voiceJoin "r1" "u1"))]).1
      (Out.toSocket 1 (.voiceOffer "u2" "sdp")) = [1] ∧
    (relayStep (relayRun (Relay.empty, []) [(1, .connect), (1, .msg (.voiceJoin "r1" "u1"))]).1 2
      (.msg (.voiceOffer "u9" "u2" "sdp"))).2 = [] := by
  have h1 := (relay_forward
    (relayRun (Relay.empty, []) [(1, .connect), (1, .msg (.voiceJoin "r1" "u1"))]).1
    2 "u1" "u2" "sdp").1 1 (by decide)
  have h2 := (relay_forward
    (relayRun (Relay.empty, []) [(1, .connect), (1, .msg (.voiceJoin "r1" "u1"))]).1
    2 "u9" "u2" "sdp").2 (by decide)
  refine ⟨by rw [h1.1], ?_, by decide, by rw [h2.1]⟩
  intro x hx
  refine h1.2.2.2.2 true [(1, .connect), (1, .msg (.voiceJoin "r1" "u1"))] ?_ rfl _ x hx
  intro y hy
  simp only [List.mem_cons, List.mem_singleton, List.not_mem_nil, or_false] at hy
  rcases hy with h | h <;> subst h
  · trivial
  · exact ne_idRoom_of_head "r1" (by decide)

/-- C4 fails as stated: socket 1 connects and registers as "u1"; socket 2
connects and sends a `voice-join` whose room is the id of socket 1.  An offer
that socket 3 addresses to "u1" is then delivered to socket 1 and to socket 2. -/
theorem relay_forward_counterexample :
    (relayRun (Relay.empty, [])
      [(1, .connect), (2, .connect), (1, .msg (.voiceJoin "r" "u1")),
       (2, .msg (.voiceJoin (idRoom 1) "u2"))]).1.userSocket "u1" = some 1 ∧
    (relayStep (relayRun (Relay.empty, [])
      [(1, .connect), (2, .connect), (1, .msg (.voiceJoin "r" "u1")),
       (2, .msg (.voiceJoin (idRoom 1) "u2"))]).1 3
      (.msg (.voiceOffer "u1" "u3" "sdp"))).2 = [Out.toSocket 1 (.voiceOffer "u3" "sdp")] ∧
    recipients (relayRun (Relay.empty, [])
      [(1, .connect), (2, .connect), (1, .msg (.voiceJoin "r" "u1")),
       (2, .msg (.voiceJoin (idRoom 1) "u2"))]).1
      (Out.toSocket 1 (.voiceOffer "u3" "sdp")) = [1, 2] := by
  decide

/-! ## The relay: who writes which registry entry -/

/-- C5 (as the code has it): a join, leave or disconnect processed for socket
`s` leaves the session metadata of every other socket unchanged, and changes
the user-id map at most at the user id the event names: the payload's user id
for join and leave, the user id recorded for `s` for disconnect.  At that user
id the mapping is written whoever it belonged to: a join sets it to `s`, a
leave removes it, a disconnect removes the one for the user id recorded for
`s`; the metadata of `s` itself is set by a join and removed by a leave and by
a disconnect. -/
theorem registry_frame (st : Relay) (s s1 : SocketId) (hs : s1 ≠ s) (r : RoomId) (u : UserId) :
    ((voiceJoin st s r u).1.socketMeta s1 = st.socketMeta s1 ∧
      (∀ u1, u1 ≠ u → (voiceJoin st s r u).1.userSocket u1 = st.userSocket u1) ∧
      (voiceJoin st s r u).1.userSocket u = some s ∧
      (voiceJoin st s r u).1.socketMeta s = some ⟨r, u⟩) ∧
    ((voiceLeave st s r u).1.socketMeta s1 = st.socketMeta s1 ∧
      (∀ u1, u1 ≠ u → (voiceLeave st s r u).1.userSocket u1 = st.userSocket u1) ∧
      (voiceLeave st s r u).1.userSocket u = none ∧
      (voiceLeave st s r u).1.socketMeta s = none) ∧
    ((disconnect st s).1.socketMeta s1 = st.socketMeta s1 ∧
      (∀ u1, (∀ m, st.socketMeta s = some m → m.userId ≠ u1) →
        (disconnect st s).1.userSocket u1 = st.userSocket u1) ∧
      (∀ m, st.socketMeta s = some m → (disconnect st s).1.userSocket m.userId = none) ∧
      (disconnect st s).1.socketMeta s = none) := by
  refine ⟨⟨?_, ?_, ?_, ?_⟩, ⟨?_, ?_, ?_, ?_⟩, ⟨?_, ?_, ?_, ?_⟩⟩
  · simp [voiceJoin_fst, Function.update_apply, hs]
  · intro u1 h1
    simp [voiceJoin_fst, Function.update_apply, h1]
  · simp [voiceJoin_fst]
  · simp [voiceJoin_fst]
  · simp [voiceLeave, Function.update_apply, hs]
  · intro u1 h1
    simp [voiceLeave, Function.update_apply, h1]
  · simp [voiceLeave]
  · simp [voiceLeave]
  · unfold disconnect
    cases hm : st.socketMeta s with
    | none => simp [leaveAll, hm]
    | some m => simp [leaveAll, hm, Function.update_apply, hs]
  · intro u1 h1
    unfold disconnect
    cases hm : st.socketMeta s with
    | none => simp [leaveAll, hm]
    | some m =>
      have := h1 m hm
      simp [leaveAll, hm, Function.update_apply, Ne.symm this]
  · intro m hm
    simp [disconnect, leaveAll, hm]
  · unfold disconnect
    cases hm : st.socketMeta s with
    | none => simp [leaveAll, hm]
    | some m => simp [leaveAll, hm]

/-- C5 instance: "u1" is registered behind socket 1.  Socket 2 joining as "u2"
leaves that mapping alone; socket 2 leaving under the name "u1" removes it; and
after socket 2 has joined as "u1", the disconnect of socket 2 removes it. -/
theorem registry_frame_witness :
    (voiceJoin (voiceJoin Relay.empty 1 "r" "u1").1 2 "r" "u2").1.userSocket "u1" = some 1 ∧
    (voiceLeave (voiceJoin Relay.empty 1 "r" "u1").1 2 "r" "u1").1.userSocket "u1" = none ∧
    (disconnect (voiceJoin (voiceJoin Relay.empty 1 "r" "u1").1 2 "r" "u1").1 2).1.userSocket "u1"
      = none ∧
    (disconnect (voiceJoin (voiceJoin Relay.empty 1 "r" "u1").1 2 "r" "u1").1 2).1.socketMeta 1
      = some ⟨"r", "u1"⟩ := by
  have h1 := registry_frame (voiceJoin Relay.empty 1 "r" "u1").1 2 1 (by decide) "r" "u2"
  have h2 := registry_frame (voiceJoin Relay.empty 1 "r" "u1").1 2 1 (by decide) "r" "u1"
  have h3 := registry_frame (voiceJoin (voiceJoin Relay.empty 1 "r" "u1").1 2 "r" "u1").1 2 1
    (by decide) "r" "u1"
  refine ⟨?_, h2.2.1.2.2.1, ?_, ?_⟩
  · rw [h1.1.2.1 "u1" (by decide)]; decide
  · exact h3.2.2.2.2.1 ⟨"r", "u1"⟩ (by decide)
  · rw [h3.2.2.1]; decide

/-- C5 fails as stated: "u1" is registered behind socket 1.  A leave naming
"u1" sent by socket 2 removes that mapping, a join naming "u1" sent by socket 2
overwrites it, and the disconnect of socket 1, after socket 2 took the id
over, removes the mapping of socket 2. -/
theorem registry_single_writer_counterexample :
    (voiceJoin Relay.empty 1 "r" "u1").1.userSocket "u1" = some 1 ∧
    (voiceLeave (voiceJoin Relay.empty 1 "r" "u1").1 2 "r" "u1").1.userSocket "u1" = none ∧
    (voiceJoin (voiceJoin Relay.empty 1 "r" "u1").1 2 "r" "u1").1.userSocket "u1" = some 2 ∧
    (disconnect (voiceJoin (voiceJoin Relay.empty 1 "r" "u1").1 2 "r" "u1").1 1).1.userSocket "u1"
      = none := by
  decide

/-! ## The relay: leave followed by join -/

theorem setAdd_setDelete_comm (l : List SocketId) {s y : SocketId} (h : y ≠ s) :
    setDelete (setAdd l y) s = setAdd (setDelete l s) y := by
  unfold setAdd
  by_cases hy : y ∈ l
  · have : y ∈ setDelete l s := mem_setDelete.2 ⟨hy, h⟩
    simp [hy, this]
  · have : y ∉ setDelete l s := fun hc => hy (mem_setDelete.1 hc).1
    simp only [hy, this, if_false]
    simp [setDelete, List.filter_append, h]

theorem setDelete_comm (l : List SocketId) (s y : SocketId) :
    setDelete (setDelete l y) s = setDelete (setDelete l s) y := by
  simp only [setDelete, List.filter_filter]
  congr 1
  funext a
  exact Bool.and_comm _ _

theorem relay_ext {a b : Relay} (h1 : a.userSocket = b.userSocket)
    (h2 : a.socketMeta = b.socketMeta) (h3 : a.rooms = b.rooms)
    (h4 : a.namespaced = b.namespaced) : a = b := by
  cases a; cases b
  simp only at h1 h2 h3 h4
  subst h1 h2 h3 h4
  rfl

theorem freshRel_step (s1 : SocketId) (r : RoomId) (u : UserId) (st st1 : Relay)
    (x : SocketId × RelayEvent) (hx : x.1 ≠ s1) (h : FreshRel s1 r u st st1) :
    FreshRel s1 r u (relayStep st x.1 x.2).1 (relayStep st1 x.1 x.2).1 := by
  obtain ⟨y, ev⟩ := x
  obtain ⟨h1, h2, h3, h4⟩ := h
  have hy : y ≠ s1 := hx
  have hmeta : st1.socketMeta y = st.socketMeta y := by
    rw [h2, Function.update_apply, if_neg hy]
  cases ev with
  | connect =>
    refine ⟨?_, h2, h3, h4⟩
    intro z
    simp only [relayStep, connect, Function.update_apply]
    by_cases hz : z = idRoom y
    · subst hz
      simp only [if_true, h1 (idRoom y)]
      split
      · rw [setAdd_setDelete_comm _ hy]
      · rfl
    · simp only [hz, if_false]
      exact h1 z
  | disconnect =>
    have hrooms : ∀ z, setDelete (st1.rooms z) y =
        if z = r then setDelete (setDelete (st.rooms z) y) s1 else setDelete (st.rooms z) y := by
      intro z
      rw [h1 z]
      split
      · rw [setDelete_comm]
      · rfl
    unfold relayStep disconnect
    simp only [leaveAll, hmeta]
    cases hm : st.socketMeta y with
    | none => exact ⟨hrooms, h2, h3, h4⟩
    | some m =>
      refine ⟨hrooms, ?_, ?_, h4⟩
      · simp only [h2]
        exact Function.update_comm hy.symm _ _ _
      · intro v hv
        simp only [Function.update_apply]
        split
        · rfl
        · exact h3 v hv
  | msg m =>
    cases m with
    | voiceJoin ρ v =>
      simp only [relayStep, voiceJoin_fst]
      refine ⟨?_, ?_, ?_, h4⟩
      · intro z
        simp only [Function.update_apply]
        by_cases hz : z = ρ
        · subst hz
          simp only [if_true, h1 z]
          split
          · rw [setAdd_setDelete_comm _ hy]
          · rfl
        · simp only [hz, if_false]
          exact h1 z
      · simp only [h2]
        exact Function.update_comm hy.symm _ _ _
      · intro w hw
        simp only [Function.update_apply]
        split
        · rfl
        · exact h3 w hw
    | voiceLeave ρ v =>
      simp only [relayStep, voiceLeave]
      refine ⟨?_, ?_, ?_, h4⟩
      · intro z
        simp only [Function.update_apply]
        by_cases hz : z = ρ
        · subst hz
          simp only [if_true, h1 z]
          split
          · rw [setDelete_comm]
          · rfl
        · simp only [hz, if_false]
          exact h1 z
      · simp only [h2]
        exact Function.update_comm hy.symm _ _ _
      · intro w hw
        simp only [Function.update_apply]
        split
        · rfl
        · exact h3 w hw
    | voiceOffer a b c =>
      simp only [relayStep, voiceOffer]
      split <;> split <;> exact ⟨h1, h2, h3, h4⟩
    | voiceAnswer a b c =>
      simp only [relayStep, voiceAnswer]
      split <;> split <;> exact ⟨h1, h2, h3, h4⟩
    | voiceIceCandidate a b c =>
      simp only [relayStep, voiceIceCandidate]
      split <;> split <;> exact ⟨h1, h2, h3, h4⟩

theorem freshRel_run (s1 : SocketId) (r : RoomId) (u : UserId)
    (evs : List (SocketId × RelayEvent)) :
    ∀ acc acc1 : Relay × List Emission, (∀ x ∈ evs, x.1 ≠ s1) → FreshRel s1 r u acc.1 acc1.1 →
      FreshRel s1 r u (relayRun acc evs).1 (relayRun acc1 evs).1 := by
  induction evs with
  | nil => intro acc acc1 _ h; exact h
  | cons x rest ih =>
    intro acc acc1 hev h
    simp only [relayRun, List.foldl_cons]
    apply ih
    · intro y hy; exact hev y (List.mem_cons_of_mem _ hy)
    · exact freshRel_step s1 r u acc.1 acc1.1 x (hev x (List.mem_cons_self _ _)) h

theorem freshRel_join (s1 s2 : SocketId) (r : RoomId) (u : UserId) (st st1 : Relay)
    (h : FreshRel s1 r u st st1) :
    voiceJoin (voiceLeave st s1 r u).1 s2 r u = voiceJoin st1 s2 r u := by
  obtain ⟨h1, h2, h3, h4⟩ := h
  have hrooms : Function.update st.rooms r (setDelete (st.rooms r) s1) = st1.rooms := by
    funext z
    rw [h1 z, Function.update_apply]
    split
    · rename_i hz; rw [hz]
    · rfl
  have hus : Function.update (Function.update st.userSocket u none) u (some s2) =
      Function.update st1.userSocket u (some s2) := by
    funext v
    simp only [Function.update_apply]
    split
    · rfl
    · rename_i hv; exact (h3 v hv).symm
  have e : (voiceLeave st s1 r u).1 =
      { st1 with userSocket := Function.update st.userSocket u none } := by
    apply relay_ext
    · rfl
    · simp [voiceLeave, h2]
    · simp only [voiceLeave]; exact hrooms
    · simp [voiceLeave, h4]
  rw [e]
  simp only [voiceJoin, roster, hus]

/-- C6 (as the code has it): let socket `s1` have joined nothing before (it
is no member of room `r` and has no metadata), let it join `r` as `u`, and let
any events of other sockets follow.  Then `s1` leaving and `s2` joining `r` as
`u` gives the same relay state and the same emissions for that join (roster
reply and broadcast) as `s2` joining after the same events without the join of
`s1`. -/
theorem leave_then_join_fresh (st : Relay) (s1 s2 : SocketId) (r : RoomId) (u : UserId)
    (evs : List (SocketId × RelayEvent))
    (hroom : s1 ∉ st.rooms r) (hmeta : st.socketMeta s1 = none)
    (hev : ∀ x ∈ evs, x.1 ≠ s1) :
    voiceJoin (voiceLeave (relayRun ((voiceJoin st s1 r u).1, []) evs).1 s1 r u).1 s2 r u =
      voiceJoin (relayRun (st, []) evs).1 s2 r u := by
  apply freshRel_join
  apply freshRel_run s1 r u evs _ _ hev
  refine ⟨?_, ?_, ?_, ?_⟩
  · intro x
    simp only [voiceJoin_fst, Function.update_apply]
    split
    · rename_i hx
      rw [hx, setDelete_setAdd_of_not_mem _ _ hroom]
    · rfl
  · simp only [voiceJoin_fst, Function.update_idem]
    rw [← hmeta]
    exact (Function.update_eq_self s1 st.socketMeta).symm
  · intro v hv
    simp [voiceJoin_fst, Function.update_apply, hv]
  · simp [voiceJoin_fst]

/-- C6 instance: socket 1 is in "r" as "u0"; socket 2 joins as "u", then
socket 4 joins as "u4" and socket 1 leaves; then socket 2 leaves and socket 3
joins as "u". -/
theorem leave_then_join_fresh_witness :
    (voiceJoin (voiceLeave (relayRun
        ((voiceJoin (voiceJoin Relay.empty 1 "r" "u0").1 2 "r" "u").1, [])
        [(4, .msg (.voiceJoin "r" "u4")), (1, .msg (.voiceLeave "r" "u0"))]).1
        2 "r" "u").1 3 "r" "u").2 =
      [Out.reply 3 (.voiceUsers ["u4", "u"]), Out.broadcast "r" 3 (.voiceUserJoined "u")] := by
  rw [leave_then_join_fresh (voiceJoin Relay.empty 1 "r" "u0").1 2 3 "r" "u"
    [(4, .msg (.voiceJoin "r" "u4")), (1, .msg (.voiceLeave "r" "u0"))]
    (by decide) (by decide) (by decide)]
  decide

/-- C6 fails as stated: socket 1 is joined to "r0" as "u" and then to "r" as
"u".  After its leave of "r" and the join of socket 2 as "u", socket 1 has no
metadata, whereas after a join of socket 2 in the state where socket 1 had not
joined "r", socket 1 still has the metadata of "r0". -/
theorem leave_then_join_counterexample :
    (voiceJoin (voiceLeave (voiceJoin (voiceJoin Relay.empty 1 "r0" "u").1 1 "r" "u").1
      1 "r" "u").1 2 "r" "u").1.socketMeta 1 = none ∧
    (voiceJoin (voiceJoin Relay.empty 1 "r0" "u").1 2 "r" "u").1.socketMeta 1
      = some ⟨"r0", "u"⟩ := by
  decide

/-! ## The client: the PeerLink table -/

theorem peerGet_peerDelete_self (peers : List (UserId × PeerLink)) (p : UserId) :
    peerGet (peerDelete peers p) p = none := by
  induction peers with
  | nil => rfl
  | cons e rest ih =>
    obtain ⟨k, v⟩ := e
    by_cases h : k = p
    · simpa [peerDelete, h] using ih
    · have : peerDelete ((k, v) :: rest) p = (k, v) :: peerDelete rest p := by
        simp [peerDelete, h]
      rw [this, peerGet, if_neg h, ih]

theorem peerGet_peerDelete_ne (peers : List (UserId × PeerLink)) {p q : UserId} (h : q ≠ p) :
    peerGet (peerDelete peers p) q = peerGet peers q := by
  induction peers with
  | nil => rfl
  | cons e rest ih =>
    obtain ⟨k, v⟩ := e
    by_cases hk : k = p
    · have hq : k ≠ q := fun e => h (e ▸ hk)
      have : peerDelete ((k, v) :: rest) p = peerDelete rest p := by
        simp [peerDelete, hk]
      rw [this, ih, peerGet, if_neg hq]
    · have : peerDelete ((k, v) :: rest) p = (k, v) :: peerDelete rest p := by
        simp [peerDelete, hk]
      rw [this, peerGet, peerGet, ih]

theorem peerDelete_of_absent (peers : List (UserId × PeerLink)) (p : UserId)
    (h : peerGet peers p = none) : peerDelete peers p = peers := by
  induction peers with
  | nil => rfl
  | cons e rest ih =>
    obtain ⟨k, v⟩ := e
    by_cases hk : k = p
    · simp [peerGet, hk] at h
    · rw [peerGet, if_neg hk] at h
      have : peerDelete ((k, v) :: rest) p = (k, v) :: peerDelete rest p := by
        simp [peerDelete, hk]
      rw [this, ih h]

theorem peerGet_peerSet_self (peers : List (UserId × PeerLink)) (p : UserId) (v : PeerLink) :
    peerGet (peerSet peers p v) p = some v := by
  induction peers with
  | nil => simp [peerSet, peerGet]
  | cons e rest ih =>
    obtain ⟨k, w⟩ := e
    by_cases hk : k = p
    · simp [peerSet, peerGet, hk]
    · simp [peerSet, peerGet, hk, ih]

theorem peerGet_peerSet_ne (peers : List (UserId × PeerLink)) {p q : UserId} (v : PeerLink)
    (h : q ≠ p) : peerGet (peerSet peers p v) q = peerGet peers q := by
  induction peers with
  | nil => simp [peerSet, peerGet, Ne.symm h]
  | cons e rest ih =>
    obtain ⟨k, w⟩ := e
    by_cases hk : k = p
    · have hq : k ≠ q := fun e => h (e ▸ hk)
      subst hk
      simp [peerSet, peerGet, hq]
    · by_cases hq : k = q
      · subst hq
        simp [peerSet, peerGet, hk]
      · simp [peerSet, peerGet, hk, hq, ih]

/-! ## The client: mute and unmute -/

/-- C7: `mute`, `unmute`, and `mute` followed by `unmute` leave `this.peers`
exactly as it was (same keys, same entries, same order), make no call into the
environment (so no message is sent and no transport operation is invoked) and
raise no error. -/
theorem mute_unmute_frame (vc : VoiceChat) :
    ((mute vc).st.peers = vc.peers ∧ (mute vc).trace = [] ∧ (mute vc).err = none) ∧
    ((unmute vc).st.peers = vc.peers ∧ (unmute vc).trace = [] ∧ (unmute vc).err = none) ∧
    ((unmute (mute vc).st).st.peers = vc.peers ∧
      (mute vc).trace ++ (unmute (mute vc).st).trace = [] ∧
      (unmute (mute vc).st).err = none) := by
  cases h : vc.localStream <;> simp [mute, unmute, h]

/-! ## The client: tearing down one PeerLink -/

/-- C8: `_handleUserLeft(p)`, and the connection-state callback of `p` for the
states failed, disconnected and closed, close the transport of `p` and remove
exactly the entry of `p`: no other field of the instance changes, `p` has no
entry afterwards, and every other peer has the entry it had.  When `p` has no
entry nothing happens at all. -/
theorem handleUserLeft_frame (vc : VoiceChat) (p : UserId) :
    ((peerGet vc.peers p).isSome = true →
      handleUserLeft vc p =
        ⟨{ vc with peers := peerDelete vc.peers p },
         [.close p, .removeAudioElement p], none⟩) ∧
    (peerGet vc.peers p = none → handleUserLeft vc p = ⟨vc, [], none⟩) ∧
    peerGet (handleUserLeft vc p).st.peers p = none ∧
    (∀ q, q ≠ p → peerGet (handleUserLeft vc p).st.peers q = peerGet vc.peers q) ∧
    (∀ state, state = ConnState.failed ∨ state = ConnState.disconnected ∨
        state = ConnState.closed →
      onconnectionstatechange vc p state = handleUserLeft vc p) := by
  refine ⟨?_, ?_, ?_, ?_, ?_⟩
  · intro h
    simp [handleUserLeft, h]
  · intro h
    simp [handleUserLeft, h]
  · by_cases h : (peerGet vc.peers p).isSome = true
    · simp [handleUserLeft, h, peerGet_peerDelete_self]
    · simp only [handleUserLeft, h]
      simpa using h
  · intro q hq
    by_cases h : (peerGet vc.peers p).isSome = true
    · simp [handleUserLeft, h, peerGet_peerDelete_ne _ hq]
    · simp [handleUserLeft, h]
  · intro state hs
    rcases hs with h | h | h <;> simp [onconnectionstatechange, h]

/-- C8 instance: a session with links to "p" and "q" handles the departure
of "p". -/
theorem handleUserLeft_frame_witness :
    handleUserLeft { startedSession "r" "me" with
        peers := [("p", ⟨⟨some "offer"⟩, none⟩), ("q", ⟨⟨none⟩, none⟩)] } "p" =
      ⟨{ startedSession "r" "me" with peers := [("q", ⟨⟨none⟩, none⟩)] },
       [.close "p", .removeAudioElement "p"], none⟩ ∧
    onconnectionstatechange (startedSession "r" "me") "p" .failed =
      ⟨startedSession "r" "me", [], none⟩ := by
  have h1 := (handleUserLeft_frame { startedSession "r" "me" with
        peers := [("p", ⟨⟨some "offer"⟩, none⟩), ("q", ⟨⟨none⟩, none⟩)] } "p").1 (by decide)
  have h2 := handleUserLeft_frame (startedSession "r" "me") "p"
  refine ⟨h1.trans (by decide), ?_⟩
  rw [h2.2.2.2.2 .failed (Or.inl rfl), h2.2.1 (by decide)]

/-! ## The client: failures of one peer -/

/-- C9, evaluated at the failing input: the session of "me" receives the
roster ["a", "b"] and `createOffer` raises for "a".  The loop ends there with
the error: "b" gets no PeerLink and no offer, whereas it gets both when the
negotiation with "a" succeeds. -/
theorem handleVoiceUsers_failure_aborts :
    peerGet (handleVoiceUsers (Env.offerFailsFor "a") (startedSession "r" "me")
      ["a", "b"]).st.peers "b" = none ∧
    sent (handleVoiceUsers (Env.offerFailsFor "a") (startedSession "r" "me")
      ["a", "b"]).trace = [] ∧
    (handleVoiceUsers (Env.offerFailsFor "a") (startedSession "r" "me") ["a", "b"]).err
      = some .negotiationFailed ∧
    (peerGet (handleVoiceUsers Env.allOk (startedSession "r" "me")
      ["a", "b"]).st.peers "b").isSome = true ∧
    sent (handleVoiceUsers Env.allOk (startedSession "r" "me") ["a", "b"]).trace
      = [.voiceOffer "a" "me" "offer", .voiceOffer "b" "me" "offer"] := by
  decide


theorem createPeerConnection_failed (env : Env) (vc : VoiceChat) (p : UserId) (b : Bool)
    (h : (createPeerConnection env vc p b).err = some .negotiationFailed) :
    peerGet (createPeerConnection env vc p b).st.peers p = some ⟨⟨none⟩, none⟩ := by
  revert h
  cases b with
  | false => simp [createPeerConnection]
  | true =>
    simp only [createPeerConnection, if_true]
    cases h2 : env.createOffer p with
    | none => simp [peerGet_peerSet_self]
    | some offer =>
      by_cases h3 : env.setLocalDescription p offer = true
      · by_cases h4 : vc.socket = true <;> simp [h3, h4, emitOn]
      · simp [h3, peerGet_peerSet_self]

theorem peerTruthy_of_absent (peers : List (UserId × PeerLink)) (p : UserId)
    (h : peerGet peers p = none) (hp : p ∉ protoNames) : peerTruthy peers p = false := by
  simp [peerTruthy, h, hp]

theorem peerTruthy_of_present (peers : List (UserId × PeerLink)) (p : UserId)
    (h : (peerGet peers p).isSome = true) : peerTruthy peers p = true := by
  simp [peerTruthy, h]

/-- C10 (as the code has it): a failing offer, answer or candidate operation
for peer `p` does not tear its PeerLink down.  When `p` has an entry: a failing
`addIceCandidate` is caught, the instance is unchanged and no error escapes; a
failing `setRemoteDescription` in `_handleAnswer`, and any failing negotiation
step in `_handleOffer`, leave the instance unchanged and raise.  When
`_createPeerConnection` has just stored the entry for `p` (any id but
`__proto__`), or was called to do so from the user-joined handler, a roster
iteration or the offer handler for a peer without an entry whose id names no
inherited property, a failing negotiation step raises and leaves that entry in
place.  In each case `p` is still in the PeerLink table when the handler has
finished. -/
theorem negotiation_failure_keeps_link (env : Env) (vc : VoiceChat) (p : UserId) :
    ((peerGet vc.peers p).isSome = true →
      (∀ c, env.addIceCandidate p c = false →
        handleRemoteCandidate env vc p c = ⟨vc, [.addIceCandidate p c], none⟩) ∧
      (∀ a, env.setRemoteDescription p a = false →
        (handleAnswer env vc p a).st = vc ∧
        (handleAnswer env vc p a).err = some .negotiationFailed) ∧
      (∀ o, (handleOffer env vc p o).err = some .negotiationFailed →
        (handleOffer env vc p o).st = vc)) ∧
    (p ≠ "__proto__" → ∀ b, (createPeerConnection env vc p b).err = some .negotiationFailed →
      peerGet (createPeerConnection env vc p b).st.peers p = some ⟨⟨none⟩, none⟩) ∧
    (peerGet vc.peers p = none → p ∉ protoNames →
      ((handleUserJoined env vc p).err = some .negotiationFailed →
        peerGet (handleUserJoined env vc p).st.peers p = some ⟨⟨none⟩, none⟩) ∧
      ((rosterIter env vc p).err = some .negotiationFailed →
        peerGet (rosterIter env vc p).st.peers p = some ⟨⟨none⟩, none⟩) ∧
      (∀ o, (handleOffer env vc p o).err = some .negotiationFailed →
        peerGet (handleOffer env vc p o).st.peers p = some ⟨⟨none⟩, none⟩)) := by
  refine ⟨?_, fun _ => createPeerConnection_failed env vc p, ?_⟩
  · intro hp
    obtain ⟨link, hl⟩ := Option.isSome_iff_exists.1 hp
    have ht := peerTruthy_of_present vc.peers p hp
    refine ⟨?_, ?_, ?_⟩
    · intro c hc
      simp [handleRemoteCandidate, hl]
    · intro a ha
      simp [handleAnswer, hl, ha]
    · intro o
      simp only [handleOffer, ht, Bool.not_true, Bool.false_eq_true, if_false, hl]
      by_cases h1 : env.setRemoteDescription p o = true
      · cases h2 : env.createAnswer p with
        | none => simp [h1]
        | some answer =>
          by_cases h3 : env.setLocalDescription p answer = true
          · by_cases h4 : vc.socket = true <;> simp [h1, h3, h4, emitOn]
          · simp [h1, h3]
      · simp [h1]
  · intro habs hplain
    have ht := peerTruthy_of_absent vc.peers p habs hplain
    refine ⟨?_, ?_, ?_⟩
    · unfold handleUserJoined
      by_cases hown : p = vc.userId
      · simp [hown]
      · simp only [hown, if_false, ht, Bool.not_false, if_true]
        exact createPeerConnection_failed env vc p true
    · unfold rosterIter
      by_cases hown : p = vc.userId
      · simp [hown]
      · simp only [hown, if_false, ht, Bool.not_false, if_true]
        exact createPeerConnection_failed env vc p true
    · intro o
      have hcp : createPeerConnection env vc p false =
          ⟨{ vc with peers := peerSet vc.peers p ⟨⟨none⟩, none⟩ },
           Effect.newPeerConnection p ::
             (match vc.localStream with
              | some stream => (List.range stream.length).map (Effect.addTrack p)
              | none => []), none⟩ := by
        simp [createPeerConnection]
      simp only [handleOffer, ht, Bool.not_false, if_true, hcp, peerGet_peerSet_self]
      by_cases h1 : env.setRemoteDescription p o = true
      · cases h2 : env.createAnswer p with
        | none => simp [h1, peerGet_peerSet_self]
        | some answer =>
          by_cases h3 : env.setLocalDescription p answer = true
          · by_cases h4 : vc.socket = true <;> simp [h1, h3, h4, emitOn]
          · simp [h1, h3, peerGet_peerSet_self]
      · simp [h1, peerGet_peerSet_self]

/-- C10 instance: the session of "me" holds a link to "p"; the candidate and
the answer from "p" cannot be applied.  And the session of "me" without links
hears that "p" joined while `createOffer` raises for "p": the entry stored for
"p" stays. -/
theorem negotiation_failure_keeps_link_witness :
    handleRemoteCandidate Env.remoteFails
        { startedSession "r" "me" with peers := [("p", ⟨⟨some "offer"⟩, none⟩)] } "p" "cand" =
      ⟨{ startedSession "r" "me" with peers := [("p", ⟨⟨some "offer"⟩, none⟩)] },
       [.addIceCandidate "p" "cand"], none⟩ ∧
    (handleAnswer Env.remoteFails
        { startedSession "r" "me" with peers := [("p", ⟨⟨some "offer"⟩, none⟩)] } "p" "sdp").st =
      { startedSession "r" "me" with peers := [("p", ⟨⟨some "offer"⟩, none⟩)] } ∧
    peerGet (handleUserJoined (Env.offerFailsFor "p") (startedSession "r" "me") "p").st.peers "p"
      = some ⟨⟨none⟩, none⟩ := by
  have h := (negotiation_failure_keeps_link Env.remoteFails
    { startedSession "r" "me" with peers := [("p", ⟨⟨some "offer"⟩, none⟩)] } "p").1 (by decide)
  have h2 := (negotiation_failure_keeps_link (Env.offerFailsFor "p")
    (startedSession "r" "me") "p").2.2 (by decide) (by decide)
  exact ⟨h.1 "cand" (by decide), (h.2.1 "sdp" (by decide)).1, h2.1 (by decide)⟩

/-- C10 fails as stated: the session of "me" holds a link to "p", and
`addIceCandidate`, respectively `setRemoteDescription`, raises for "p".  After
the candidate handler, the answer handler and the offer handler have
finished, "p" is still in the PeerLink table.  Likewise the entry stored for
"p" on `voice-user-joined` is still there after `createOffer` raised. -/
theorem negotiation_failure_teardown_counterexample :
    (peerGet (handleRemoteCandidate Env.remoteFails
      { startedSession "r" "me" with peers := [("p", ⟨⟨some "offer"⟩, none⟩)] }
      "p" "cand").st.peers "p").isSome = true ∧
    (peerGet (handleAnswer Env.remoteFails
      { startedSession "r" "me" with peers := [("p", ⟨⟨some "offer"⟩, none⟩)] }
      "p" "sdp").st.peers "p").isSome = true ∧
    (peerGet (handleOffer Env.remoteFails
      { startedSession "r" "me" with peers := [("p", ⟨⟨some "offer"⟩, none⟩)] }
      "p" "sdp").st.peers "p").isSome = true ∧
    (handleOffer Env.remoteFails
      { startedSession "r" "me" with peers := [("p", ⟨⟨some "offer"⟩, none⟩)] }
      "p" "sdp").err = some .negotiationFailed ∧
    (peerGet (handleUserJoined (Env.offerFailsFor "p") (startedSession "r" "me")
      "p").st.peers "p").isSome = true ∧
    (handleUserJoined (Env.offerFailsFor "p") (startedSession "r" "me") "p").err
      = some .negotiationFailed := by
  decide

/-! ## The client: which fields a handler writes -/

theorem emitOn_st (vc : VoiceChat) (tr : List Effect) (m : ClientMsg) : (emitOn vc tr m).st = vc := by
  unfold emitOn
  split <;> rfl

theorem createPeerConnection_frame (env : Env) (vc : VoiceChat) (p : UserId) (b : Bool) :
    (createPeerConnection env vc p b).st =
      { vc with peers := (createPeerConnection env vc p b).st.peers } := by
  unfold createPeerConnection emitOn
  dsimp only
  repeat' split
  all_goals rfl

theorem rosterIter_frame (env : Env) (vc : VoiceChat) (u : UserId) :
    (rosterIter env vc u).st = { vc with peers := (rosterIter env vc u).st.peers } := by
  unfold rosterIter
  repeat' split
  · rfl
  · exact createPeerConnection_frame env vc u true
  · rfl

theorem handleVoiceUsers_cons_ok (env : Env) (vc : VoiceChat) (u : UserId) (rest : List UserId)
    (h : (rosterIter env vc u).err = none) :
    handleVoiceUsers env vc (u :: rest) =
      ⟨(handleVoiceUsers env (rosterIter env vc u).st rest).st,
       (rosterIter env vc u).trace ++ (handleVoiceUsers env (rosterIter env vc u).st rest).trace,
       (handleVoiceUsers env (rosterIter env vc u).st rest).err⟩ := by
  rw [handleVoiceUsers]
  simp only [h]

theorem handleVoiceUsers_cons_err (env : Env) (vc : VoiceChat) (u : UserId) (rest : List UserId)
    (e : JsError) (h : (rosterIter env vc u).err = some e) :
    handleVoiceUsers env vc (u :: rest) =
      ⟨(rosterIter env vc u).st, (rosterIter env vc u).trace, some e⟩ := by
  rw [handleVoiceUsers]
  simp only [h]

theorem handleVoiceUsers_frame (env : Env) (users : List UserId) :
    ∀ vc : VoiceChat, (handleVoiceUsers env vc users).st =
      { vc with peers := (handleVoiceUsers env vc users).st.peers } := by
  induction users with
  | nil => intro vc; rfl
  | cons u rest ih =>
    intro vc
    cases h3 : (rosterIter env vc u).err with
    | some e =>
      rw [handleVoiceUsers_cons_err env vc u rest e h3]
      exact rosterIter_frame env vc u
    | none =>
      rw [handleVoiceUsers_cons_ok env vc u rest h3]
      simp only
      rw [ih, rosterIter_frame env vc u]

theorem handleOffer_frame (env : Env) (vc : VoiceChat) (f : UserId) (o : Sdp) :
    (handleOffer env vc f o).st = { vc with peers := (handleOffer env vc f o).st.peers } := by
  unfold handleOffer createPeerConnection emitOn
  dsimp only
  repeat' split
  all_goals rfl

theorem onServerMsg_frame (env : Env) (vc : VoiceChat) (m : ServerMsg) :
    (onServerMsg env vc m).st = { vc with peers := (onServerMsg env vc m).st.peers } := by
  cases m with
  | voiceUsers users => exact handleVoiceUsers_frame env users vc
  | voiceUserJoined u =>
    simp only [onServerMsg, handleUserJoined]
    repeat' split
    · rfl
    · exact createPeerConnection_frame env vc u true
    · rfl
  | voiceUserLeft u =>
    simp only [onServerMsg, handleUserLeft]
    split <;> rfl
  | voiceOffer f o => exact handleOffer_frame env vc f o
  | voiceAnswer f a =>
    simp only [onServerMsg, handleAnswer]
    repeat' split
    all_goals rfl
  | voiceIceCandidate f c =>
    simp only [onServerMsg, handleRemoteCandidate]
    repeat' split
    all_goals rfl

theorem clientStep_started (env : Env) (vc : VoiceChat) (ev : ClientEvent)
    (hs : vc.started = true) (hev : ev ≠ .stop) : (clientStep env vc ev).st.started = true := by
  cases ev with
  | start => simp [clientStep, start, hs]
  | stop => exact absurd rfl hev
  | mute => simp only [clientStep, mute]; split <;> exact hs
  | unmute => simp only [clientStep, unmute]; split <;> exact hs
  | server m =>
    simp only [clientStep]
    rw [onServerMsg_frame]
    exact hs
  | connectionStateChange p state =>
    simp only [clientStep, onconnectionstatechange, handleUserLeft]
    repeat' split
    all_goals exact hs
  | iceCandidate p c =>
    simp only [clientStep, onicecandidate]
    split
    · rw [emitOn_st]; exact hs
    · exact hs
  | track p =>
    simp only [clientStep, ontrack]
    split <;> exact hs

theorem runClient_started (evs : List (Env × ClientEvent)) :
    ∀ vc : VoiceChat, vc.started = true → (∀ x ∈ evs, x.2 ≠ ClientEvent.stop) →
      (runClient vc evs).started = true := by
  induction evs with
  | nil => intro vc hs _; exact hs
  | cons x rest ih =>
    intro vc hs hno
    obtain ⟨env, ev⟩ := x
    simp only [runClient]
    apply ih
    · exact clientStep_started env vc ev hs (hno (env, ev) (List.mem_cons_self _ _))
    · intro y hy
      exact hno y (List.mem_cons_of_mem _ hy)

/-! ## The client: start and stop -/

theorem start_of_started (env : Env) (vc : VoiceChat) (h : vc.started = true) :
    start env vc = ⟨vc, [], none⟩ := by
  simp [start, h]

/-- C20: when `start` on a not-started session fails, because capture is
refused or because the socket.io client is missing, the error escapes, no join
is sent, and `started` stays set (with the stream held in the second case).
After that, and after any further events other than `stop`, `start` returns at
once: same instance, no call into the environment, no error. -/
theorem start_failure_sticks (env : Env) (vc : VoiceChat) (hs : vc.started = false) :
    (env.getUserMedia = none →
      (start env vc).err = some .captureFailed ∧ sent (start env vc).trace = [] ∧
      (start env vc).st.started = true) ∧
    (∀ ms, env.getUserMedia = some ms → env.ioAvailable = false →
      (start env vc).err = some .ioNotFound ∧ sent (start env vc).trace = [] ∧
      (start env vc).st.started = true ∧ (start env vc).st.localStream = some ms) ∧
    (∀ evs : List (Env × ClientEvent), (∀ x ∈ evs, x.2 ≠ ClientEvent.stop) → ∀ env2,
      start env2 (runClient (start env vc).st evs) =
        ⟨runClient (start env vc).st evs, [], none⟩) := by
  have hst : (start env vc).st.started = true := by
    unfold start
    simp only [hs, Bool.false_eq_true, if_false]
    cases env.getUserMedia with
    | none => rfl
    | some ms =>
      simp only
      split <;> rfl
  refine ⟨?_, ?_, ?_⟩
  · intro h
    refine ⟨?_, ?_, hst⟩ <;> simp [start, hs, h, sent]
  · intro ms h1 h2
    refine ⟨?_, ?_, hst, ?_⟩ <;> simp [start, hs, h1, h2, sent]
  · intro evs hno env2
    exact start_of_started env2 _ (runClient_started evs (start env vc).st hst hno)

/-- C20 instance: a fresh session whose capture is refused; a later `start`
with a working environment does nothing. -/
theorem start_failure_sticks_witness :
    (start Env.noCapture (VoiceChat.new "/" "r" "me" [] false)).err = some .captureFailed ∧
    (start Env.allOk (start Env.noCapture (VoiceChat.new "/" "r" "me" [] false)).st).trace
      = [] ∧
    (start Env.noIo (VoiceChat.new "/" "r" "me" [] false)).err = some .ioNotFound := by
  have h := start_failure_sticks Env.noCapture (VoiceChat.new "/" "r" "me" [] false) rfl
  have h2 := start_failure_sticks Env.noIo (VoiceChat.new "/" "r" "me" [] false) rfl
  refine ⟨(h.1 rfl).1, ?_, (h2.2.1 _ rfl rfl).1⟩
  have h3 := h.2.2 [] (by simp) Env.allOk
  simp only [runClient] at h3
  rw [h3]

/-- C15: a candidate from a sender without a PeerLink entry is dropped: the
session is unchanged, nothing is called and nothing is sent. -/
theorem handleRemoteCandidate_untracked (env : Env) (vc : VoiceChat) (f : UserId)
    (c : Candidate) (h : peerGet vc.peers f = none) :
    handleRemoteCandidate env vc f c = ⟨vc, [], none⟩ ∧
    onServerMsg env vc (.voiceIceCandidate f c) = ⟨vc, [], none⟩ := by
  simp [onServerMsg, handleRemoteCandidate, h]

/-- C15 instance: the session of "me" has a link to "p" only and receives a
candidate from "q". -/
theorem handleRemoteCandidate_untracked_witness :
    handleRemoteCandidate Env.allOk
        { startedSession "r" "me" with peers := [("p", ⟨⟨some "offer"⟩, none⟩)] } "q" "cand" =
      ⟨{ startedSession "r" "me" with peers := [("p", ⟨⟨some "offer"⟩, none⟩)] }, [], none⟩ :=
  (handleRemoteCandidate_untracked Env.allOk
    { startedSession "r" "me" with peers := [("p", ⟨⟨some "offer"⟩, none⟩)] } "q" "cand"
    (by decide)).1

theorem sent_closes (keys : List UserId) :
    sent (keys.flatMap (fun id => [Effect.close id, .removeAudioElement id])) = [] := by
  induction keys with
  | nil => rfl
  | cons k rest ih => simp [List.flatMap_cons, sent_cons, ih]

theorem sent_stopTracks (l : List Nat) : sent (l.map Effect.stopTrack) = [] := by
  induction l with
  | nil => rfl
  | cons x xs ih => simp [sent_cons, ih]

/-- C13 (as the code has it): `stop` closes the transport of every PeerLink
and empties the table, stops every track of the stream and clears it, sends a
leave for (roomId, userId) and disconnects when a socket exists, and raises
nothing.  Afterwards the instance equals a newly constructed one with the same
configuration except for the `muted` flag, which `stop` does not write.  A
following `start` is not a no-op: it sets `started` and asks for capture. -/
theorem stop_resets (vc : VoiceChat) :
    (stop vc).st =
      { VoiceChat.new vc.socketUrl vc.roomId vc.userId vc.iceServers vc.debug with
        muted := vc.muted } ∧
    (∀ p ∈ peerKeys vc.peers, Effect.close p ∈ (stop vc).trace) ∧
    (stop vc).st.peers = [] ∧ (stop vc).st.localStream = none ∧
    (∀ ms, vc.localStream = some ms → ∀ i, i < ms.length →
      Effect.stopTrack i ∈ (stop vc).trace) ∧
    sent (stop vc).trace = (if vc.socket then [.voiceLeave vc.roomId vc.userId] else []) ∧
    (vc.socket = true → Effect.socketDisconnect ∈ (stop vc).trace) ∧
    (stop vc).err = none ∧
    (∀ env, (start env (stop vc).st).st.started = true ∧
      Effect.getUserMedia ∈ (start env (stop vc).st).trace) := by
  refine ⟨rfl, ?_, rfl, rfl, ?_, ?_, ?_, rfl, ?_⟩
  · intro p hp
    simp only [stop, List.mem_append, List.mem_flatMap]
    exact Or.inl (Or.inl ⟨p, hp, by simp⟩)
  · intro ms hms i hi
    simp only [stop, hms, List.mem_append, List.mem_map, List.mem_range]
    exact Or.inl (Or.inr ⟨i, hi, rfl⟩)
  · simp only [stop, sent_append, sent_closes]
    cases vc.localStream <;> cases vc.socket <;> simp [sent_stopTracks, sent_cons, sent_nil]
  · intro h
    simp [stop, h]
  · intro env
    simp only [start, stop, Bool.false_eq_true, if_false]
    cases env.getUserMedia with
    | none => simp
    | some ms => cases env.ioAvailable <;> simp

/-- C13 instance: a started session with links to "p" and "q" is stopped. -/
theorem stop_resets_witness :
    Effect.close "q" ∈
      (stop { startedSession "r" "me" with
        peers := [("p", ⟨⟨some "offer"⟩, none⟩), ("q", ⟨⟨none⟩, none⟩)] }).trace ∧
    Effect.socketDisconnect ∈
      (stop { startedSession "r" "me" with
        peers := [("p", ⟨⟨some "offer"⟩, none⟩), ("q", ⟨⟨none⟩, none⟩)] }).trace := by
  have h := stop_resets { startedSession "r" "me" with
        peers := [("p", ⟨⟨some "offer"⟩, none⟩), ("q", ⟨⟨none⟩, none⟩)] }
  exact ⟨h.2.1 "q" (by decide), h.2.2.2.2.2.2.1 (by decide)⟩

/-- C13 fails as stated: a session of "me" that was started and then stopped
has `muted = false`, while a newly constructed session with the same
configuration has `muted = true`. -/
theorem stop_mute_flag_counterexample :
    (stop (startedSession "r" "me")).st ≠ VoiceChat.new "/" "r" "me" [] false ∧
    (stop (startedSession "r" "me")).st.muted = false ∧
    (VoiceChat.new "/" "r" "me" [] false).muted = true := by
  decide

/-! ## The client: self links -/

/-- C11, evaluated at the failing input: a freshly constructed session of
"me" is started and then receives an offer whose sender is "me".  The offer
handler stores a PeerLink under the session's own user id. -/
theorem handleOffer_self_link :
    peerKeys (runClient (VoiceChat.new "/" "r" "me" [] false)
      [(Env.allOk, .start), (Env.allOk, .server (.voiceOffer "me" "sdp"))]).peers = ["me"] ∧
    (runClient (VoiceChat.new "/" "r" "me" [] false)
      [(Env.allOk, .start), (Env.allOk, .server (.voiceOffer "me" "sdp"))]).userId = "me" ∧
    peerKeys (runClient (VoiceChat.new "/" "r" "me" [] false)
      [(Env.allOk, .start), (Env.allOk, .server (.voiceUsers ["me"])),
       (Env.allOk, .server (.voiceUserJoined "me"))]).peers = [] := by
  decide


/-! ## The relay: leave -/

theorem setDelete_of_not_mem (l : List SocketId) (s : SocketId) (h : s ∉ l) :
    setDelete l s = l := by
  unfold setDelete
  apply List.filter_eq_self.2
  intro a ha
  have : a ≠ s := fun e => h (e ▸ ha)
  simpa using this

/-- C14 (as the code has it): a leave for `user` sent by socket `s` changes no
registry state when `user` has no registered session and, in addition, `s` has
no metadata and is no member of `room`; and in every state the same leave
handled twice leaves the same registry as handled once. -/
theorem voiceLeave_absent (st : Relay) (s : SocketId) (r : RoomId) (u : UserId) :
    (st.userSocket u = none → st.socketMeta s = none → s ∉ st.rooms r →
      (voiceLeave st s r u).1 = st) ∧
    (voiceLeave (voiceLeave st s r u).1 s r u).1 = (voiceLeave st s r u).1 := by
  constructor
  · intro h1 h2 h3
    simp only [voiceLeave, setDelete_of_not_mem _ _ h3]
    have e1 : Function.update st.userSocket u none = st.userSocket := by
      rw [← h1]; exact Function.update_eq_self u st.userSocket
    have e2 : Function.update st.socketMeta s none = st.socketMeta := by
      rw [← h2]; exact Function.update_eq_self s st.socketMeta
    rw [e1, e2, Function.update_eq_self]
  · simp only [voiceLeave, Function.update_same, Function.update_idem, setDelete_idem]

/-- C14 instance: socket 1 is in "r" as "u1"; socket 2, which never joined,
sends a leave for the unregistered "ghost". -/
theorem voiceLeave_absent_witness :
    (voiceLeave (voiceJoin Relay.empty 1 "r" "u1").1 2 "r" "ghost").1 =
      (voiceJoin Relay.empty 1 "r" "u1").1 :=
  (voiceLeave_absent (voiceJoin Relay.empty 1 "r" "u1").1 2 "r" "ghost").1
    (by decide) (by decide) (by decide)

/-- C14 fails as stated: socket 1 is in "r" as "u1" and sends a leave naming
"ghost", which has no registered session.  The leave removes the metadata of
socket 1 and its membership of "r". -/
theorem voiceLeave_absent_user_counterexample :
    (voiceJoin Relay.empty 1 "r" "u1").1.userSocket "ghost" = none ∧
    (voiceJoin Relay.empty 1 "r" "u1").1.socketMeta 1 = some ⟨"r", "u1"⟩ ∧
    (voiceLeave (voiceJoin Relay.empty 1 "r" "u1").1 1 "r" "ghost").1.socketMeta 1 = none ∧
    (voiceJoin Relay.empty 1 "r" "u1").1.rooms "r" = [1] ∧
    (voiceLeave (voiceJoin Relay.empty 1 "r" "u1").1 1 "r" "ghost").1.rooms "r" = [] := by
  decide

/-! ## The relay: routing and rooms -/

/-- C16 (as the code has it): what the relay emits for an offer, answer or
candidate is decided by the user-id map alone: one emission to the socket
registered under the addressed user id, none when there is no such socket,
whatever the room table says about sender and receiver. -/
theorem relay_routes_by_user_id (st : Relay) (rooms1 : RoomId → List SocketId) (s : SocketId)
    (toUser fromUser : UserId) (payload : String) :
    (relayStep { st with rooms := rooms1 } s (.msg (.voiceOffer toUser fromUser payload))).2 =
      (st.userSocket toUser).toList.map (fun sid => Out.toSocket sid (.voiceOffer fromUser payload)) ∧
    (relayStep { st with rooms := rooms1 } s (.msg (.voiceAnswer toUser fromUser payload))).2 =
      (st.userSocket toUser).toList.map
        (fun sid => Out.toSocket sid (.voiceAnswer fromUser payload)) ∧
    (relayStep { st with rooms := rooms1 } s
        (.msg (.voiceIceCandidate toUser fromUser payload))).2 =
      (st.userSocket toUser).toList.map
        (fun sid => Out.toSocket sid (.voiceIceCandidate fromUser payload)) := by
  cases h : st.userSocket toUser <;>
    simp [relayStep, voiceOffer, voiceAnswer, voiceIceCandidate, h]

/-- C16 fails as stated: socket 1 joins "r1" as "u1" and socket 2 joins "r2" as
"u2", so no room has both as members; an offer from socket 1 addressed to "u2"
is delivered to socket 2. -/
theorem relay_room_scoping_counterexample :
    (∀ r, ¬ (1 ∈ (relayRun (Relay.empty, [])
        [(1, .msg (.voiceJoin "r1" "u1")), (2, .msg (.voiceJoin "r2" "u2"))]).1.rooms r ∧
      2 ∈ (relayRun (Relay.empty, [])
        [(1, .msg (.voiceJoin "r1" "u1")), (2, .msg (.voiceJoin "r2" "u2"))]).1.rooms r)) ∧
    (relayStep (relayRun (Relay.empty, [])
        [(1, .msg (.voiceJoin "r1" "u1")), (2, .msg (.voiceJoin "r2" "u2"))]).1 1
      (.msg (.voiceOffer "u2" "u1" "sdp"))).2 = [Out.toSocket 2 (.voiceOffer "u1" "sdp")] := by
  constructor
  · intro r
    simp only [relayRun, List.foldl, traceStep, relayStep, voiceJoin_fst, Relay.empty,
      Relay.emptyOn, Function.update_apply]
    by_cases h2 : r = "r2"
    · subst h2; decide
    · by_cases h1 : r = "r1"
      · subst h1; decide
      · simp [h1, h2, setAdd]
  · decide

/-! ## The relay: the two registry maps -/

theorem registryInv_empty (owner : SocketId → UserId) : RegistryInv owner Relay.empty := by
  constructor
  · intro s m h; simp [Relay.empty, Relay.emptyOn] at h
  · intro u s; simp [Relay.empty, Relay.emptyOn]

theorem registryInv_join (owner : SocketId → UserId) (hinj : Function.Injective owner)
    (st : Relay) (x : SocketId) (r : RoomId) (h : RegistryInv owner st) :
    RegistryInv owner (voiceJoin st x r (owner x)).1 := by
  obtain ⟨h1, h2⟩ := h
  constructor
  · intro s m hm
    simp only [voiceJoin_fst, Function.update_apply] at hm
    split at hm
    · rename_i hs
      simp only [Option.some.injEq] at hm
      rw [← hm, hs]
    · exact h1 s m hm
  · intro u s
    simp only [voiceJoin_fst, Function.update_apply]
    by_cases hs : s = x
    · subst hs
      by_cases hu : u = owner s
      · simp [hu]
      · simp only [hu, if_false, if_true, Option.isSome_some, and_false, iff_false]
        intro hcon
        exact hu ((h2 u s).1 hcon).2
    · by_cases hu : u = owner x
      · have hne : owner x ≠ owner s := fun e => hs (hinj e).symm
        simp [hu, hs, hne, Ne.symm hs]
      · simp only [hu, hs, if_false]
        exact h2 u s

theorem registryInv_leave (owner : SocketId → UserId) (hinj : Function.Injective owner)
    (st : Relay) (x : SocketId) (r : RoomId) (h : RegistryInv owner st) :
    RegistryInv owner (voiceLeave st x r (owner x)).1 := by
  obtain ⟨h1, h2⟩ := h
  constructor
  · intro s m hm
    simp only [voiceLeave, Function.update_apply] at hm
    split at hm
    · simp at hm
    · exact h1 s m hm
  · intro u s
    simp only [voiceLeave, Function.update_apply]
    by_cases hs : s = x
    · subst hs
      by_cases hu : u = owner s
      · simp [hu]
      · simp only [hu, if_false, if_true, Option.isSome_none, Bool.false_eq_true, false_and,
          iff_false]
        intro hcon
        exact hu ((h2 u s).1 hcon).2
    · by_cases hu : u = owner x
      · have hne : owner x ≠ owner s := fun e => hs (hinj e).symm
        simp [hu, hs, hne]
      · simp only [hu, hs, if_false]
        exact h2 u s

theorem registryInv_congr (owner : SocketId → UserId) (st1 st2 : Relay)
    (hu : st2.userSocket = st1.userSocket) (hm : st2.socketMeta = st1.socketMeta)
    (h : RegistryInv owner st1) : RegistryInv owner st2 := by
  unfold RegistryInv at *
  rw [hu, hm]
  exact h

theorem registryInv_disconnect (owner : SocketId → UserId) (hinj : Function.Injective owner)
    (st : Relay) (x : SocketId) (h : RegistryInv owner st) :
    RegistryInv owner (disconnect st x).1 := by
  cases hm : st.socketMeta x with
  | none =>
    have e : (disconnect st x).1 = leaveAll st x := by
      simp [disconnect, leaveAll, hm]
    rw [e]
    exact registryInv_congr owner st _ rfl rfl h
  | some m =>
    have hu : m.userId = owner x := h.1 x m hm
    have e : (disconnect st x).1 =
        { userSocket := Function.update st.userSocket (owner x) none,
          socketMeta := Function.update st.socketMeta x none,
          rooms := fun r => setDelete (st.rooms r) x,
          namespaced := st.namespaced } := by
      simp [disconnect, leaveAll, hm, hu]
    rw [e]
    exact registryInv_congr owner _ _ rfl rfl (registryInv_leave owner hinj st x m.roomId h)

theorem registryInv_step (owner : SocketId → UserId) (hinj : Function.Injective owner)
    (st : Relay) (x : SocketId × RelayEvent) (hd : Disciplined owner x)
    (h : RegistryInv owner st) : RegistryInv owner (relayStep st x.1 x.2).1 := by
  obtain ⟨s, ev⟩ := x
  cases ev with
  | connect => exact registryInv_congr owner st _ rfl rfl h
  | disconnect => exact registryInv_disconnect owner hinj st s h
  | msg m =>
    cases m with
    | voiceJoin r u =>
      have : u = owner s := hd
      subst this
      exact registryInv_join owner hinj st s r h
    | voiceLeave r u =>
      have : u = owner s := hd
      subst this
      exact registryInv_leave owner hinj st s r h
    | voiceOffer t f o =>
      simp only [relayStep, voiceOffer]
      split <;> exact h
    | voiceAnswer t f o =>
      simp only [relayStep, voiceAnswer]
      split <;> exact h
    | voiceIceCandidate t f o =>
      simp only [relayStep, voiceIceCandidate]
      split <;> exact h

theorem registryInv_run (owner : SocketId → UserId) (hinj : Function.Injective owner)
    (evs : List (SocketId × RelayEvent)) :
    ∀ acc : Relay × List Emission, (∀ x ∈ evs, Disciplined owner x) →
      RegistryInv owner acc.1 → RegistryInv owner (relayRun acc evs).1 := by
  induction evs with
  | nil => intro acc _ h; exact h
  | cons x rest ih =>
    intro acc hd h
    simp only [relayRun, List.foldl_cons]
    apply ih
    · intro y hy; exact hd y (List.mem_cons_of_mem _ hy)
    · exact registryInv_step owner hinj acc.1 x (hd x (List.mem_cons_self _ _)) h

/-- C17 (as the code has it): in every relay state reached from the empty
registry by events in which every session names one user id of its own in all
its joins and leaves, distinct sessions naming distinct ids, the two maps are
mutually inverse: `userSocket[u] = s` iff `socketMeta[s].userId = u`. -/
theorem registry_inverse_of_disciplined (owner : SocketId → UserId)
    (hinj : Function.Injective owner) (evs : List (SocketId × RelayEvent))
    (hd : ∀ x ∈ evs, Disciplined owner x) (u : UserId) (s : SocketId) :
    (relayRun (Relay.empty, []) evs).1.userSocket u = some s ↔
      ∃ m, (relayRun (Relay.empty, []) evs).1.socketMeta s = some m ∧ m.userId = u := by
  obtain ⟨h1, h2⟩ := registryInv_run owner hinj evs (Relay.empty, []) hd
    (registryInv_empty owner)
  rw [h2]
  constructor
  · rintro ⟨hs, hu⟩
    obtain ⟨m, hm⟩ := Option.isSome_iff_exists.1 hs
    exact ⟨m, hm, by rw [hu, h1 s m hm]⟩
  · rintro ⟨m, hm, hu⟩
    exact ⟨by simp [hm], by rw [← hu, h1 s m hm]⟩

theorem unaryOwner_injective : Function.Injective unaryOwner := by
  intro a b h
  have h1 := congrArg String.length h
  simpa [unaryOwner, String.length] using h1

/-- C17 instance: sockets 1 and 2 join "r" under their own ids and socket 1
disconnects; the id of socket 2 maps to socket 2. -/
theorem registry_inverse_of_disciplined_witness :
    (relayRun (Relay.empty, [])
      [(1, .msg (.voiceJoin "r" (unaryOwner 1))), (2, .msg (.voiceJoin "r" (unaryOwner 2))),
       (1, .disconnect)]).1.userSocket (unaryOwner 2) = some 2 := by
  rw [registry_inverse_of_disciplined unaryOwner unaryOwner_injective
    [(1, .msg (.voiceJoin "r" (unaryOwner 1))), (2, .msg (.voiceJoin "r" (unaryOwner 2))),
     (1, .disconnect)]
    (by
      intro x hx
      simp only [List.mem_cons, List.mem_singleton, List.not_mem_nil, or_false] at hx
      rcases hx with h | h | h <;> subst h <;> simp [Disciplined])]
  exact ⟨⟨"r", unaryOwner 2⟩, by decide, rfl⟩

/-- C17 fails as stated: socket 1 joins "r" as "u1" and then as "u2".  The
map still sends "u1" to socket 1, whose metadata now records "u2".  And when
socket 2 joins as "u2" as well, the metadata of socket 1 records "u2" while
"u2" maps to socket 2. -/
theorem registry_inverse_counterexample :
    (relayRun (Relay.empty, [])
      [(1, .msg (.voiceJoin "r" "u1")), (1, .msg (.voiceJoin "r" "u2"))]).1.userSocket "u1"
      = some 1 ∧
    (relayRun (Relay.empty, [])
      [(1, .msg (.voiceJoin "r" "u1")), (1, .msg (.voiceJoin "r" "u2"))]).1.socketMeta 1
      = some ⟨"r", "u2"⟩ ∧
    (relayRun (Relay.empty, [])
      [(1, .msg (.voiceJoin "r" "u1")), (1, .msg (.voiceJoin "r" "u2")),
       (2, .msg (.voiceJoin "r" "u2"))]).1.userSocket "u2" = some 2 := by
  decide


/-! ## The relay: order of roster reply and join notification -/

theorem relayStep_namespaced (st : Relay) (x : SocketId) (ev : RelayEvent) :
    (relayStep st x ev).1.namespaced = st.namespaced := by
  cases ev with
  | connect => rfl
  | disconnect =>
    unfold relayStep disconnect
    dsimp only
    split <;> rfl
  | msg m =>
    cases m with
    | voiceJoin r u => simp [relayStep, voiceJoin_fst]
    | voiceLeave r u => rfl
    | voiceOffer t f o => simp only [relayStep, voiceOffer]; split <;> rfl
    | voiceAnswer t f o => simp only [relayStep, voiceAnswer]; split <;> rfl
    | voiceIceCandidate t f o => simp only [relayStep, voiceIceCandidate]; split <;> rfl

theorem relayStep_rooms (st : Relay) (x : SocketId) (ev : RelayEvent) (s : SocketId)
    (r : RoomId) (h : s ∈ (relayStep st x ev).1.rooms r) :
    s ∈ st.rooms r ∨ (s = x ∧ ∃ u, ev = .msg (.voiceJoin r u)) ∨ r = idRoom s := by
  cases ev with
  | connect =>
    simp only [relayStep, connect, Function.update_apply] at h
    split at h
    · rename_i hr
      rcases mem_setAdd.1 h with h1 | h1
      · left; rw [hr]; exact h1
      · right; right; rw [hr, h1]
    · left; exact h
  | disconnect =>
    left
    unfold relayStep disconnect at h
    dsimp only at h
    split at h
    · exact (mem_setDelete.1 h).1
    · exact (mem_setDelete.1 h).1
  | msg m =>
    cases m with
    | voiceJoin r1 u =>
      simp only [relayStep, voiceJoin_fst, Function.update_apply] at h
      split at h
      · rename_i hr
        rcases mem_setAdd.1 h with h1 | h1
        · left; rw [hr]; exact h1
        · right; left; exact ⟨h1, u, by rw [hr]⟩
      · left; exact h
    | voiceLeave r1 u =>
      left
      simp only [relayStep, voiceLeave, Function.update_apply] at h
      split at h
      · rename_i hr
        rw [hr]; exact (mem_setDelete.1 h).1
      · exact h
    | voiceOffer t f o =>
      left
      simp only [relayStep, voiceOffer] at h
      split at h <;> exact h
    | voiceAnswer t f o =>
      left
      simp only [relayStep, voiceAnswer] at h
      split at h <;> exact h
    | voiceIceCandidate t f o =>
      left
      simp only [relayStep, voiceIceCandidate] at h
      split at h <;> exact h

theorem relayStep_joined_out (st : Relay) (x : SocketId) (ev : RelayEvent) (o : Out)
    (r : RoomId) (y : SocketId) (u : UserId) (ho : o ∈ (relayStep st x ev).2)
    (hb : o = .broadcast r y (.voiceUserJoined u)) :
    ev = .msg (.voiceJoin r u) ∧ y = x ∧ st.namespaced = true := by
  subst hb
  cases ev with
  | connect => simp [relayStep, connect] at ho
  | disconnect =>
    unfold relayStep disconnect at ho
    dsimp only at ho
    split at ho <;> simp at ho
  | msg m =>
    cases m with
    | voiceJoin r1 u1 =>
      cases hns : st.namespaced with
      | false => simp [relayStep, voiceJoin, hns] at ho
      | true =>
        simp only [relayStep, voiceJoin, hns, if_true, List.mem_cons, List.mem_singleton,
          List.not_mem_nil, or_false, Out.broadcast.injEq, ServerMsg.voiceUserJoined.injEq,
          reduceCtorEq, false_or] at ho
        obtain ⟨h1, h2, h3⟩ := ho
        subst h1 h2 h3
        exact ⟨rfl, rfl, rfl⟩
    | voiceLeave r1 u1 => simp [relayStep, voiceLeave] at ho
    | voiceOffer t f p =>
      simp only [relayStep, voiceOffer] at ho
      split at ho <;> simp at ho
    | voiceAnswer t f p =>
      simp only [relayStep, voiceAnswer] at ho
      split at ho <;> simp at ho
    | voiceIceCandidate t f p =>
      simp only [relayStep, voiceIceCandidate] at ho
      split at ho <;> simp at ho

theorem rosterSeen_step (acc : Relay × List Emission) (x : SocketId × RelayEvent)
    (hns : acc.1.namespaced = true) (h : RosterSeen acc) : RosterSeen (traceStep acc x) := by
  intro s r hs
  simp only [traceStep] at hs
  rcases relayStep_rooms acc.1 x.1 x.2 s r hs with h1 | ⟨h1, u, h2⟩ | h1
  · rcases h s r h1 with h3 | ⟨e, he, hr⟩
    · exact Or.inl h3
    · exact Or.inr ⟨e, by simp only [traceStep]; exact List.mem_append_left _ he, hr⟩
  · right
    refine ⟨⟨x.1, x.2, Out.reply x.1 (.voiceUsers (roster (relayStep acc.1 x.1 x.2).1 r)),
      [x.1]⟩, ?_, ?_⟩
    · simp only [traceStep]
      apply List.mem_append_right
      simp only [List.mem_map]
      refine ⟨Out.reply x.1 (.voiceUsers (roster (relayStep acc.1 x.1 x.2).1 r)), ?_, rfl⟩
      rw [h2]
      simp [relayStep, voiceJoin, hns]
    · exact ⟨h1.symm, u, _, h2, by rw [h1]⟩
  · exact Or.inl h1

theorem notice_in_step (acc : Relay × List Emission) (x : SocketId × RelayEvent)
    (hseen : acc.1.namespaced = true → RosterSeen acc) (s : SocketId) (r : RoomId)
    (e : Emission)
    (hmem : e ∈ List.map (fun o => (⟨x.1, x.2, o, recipients (relayStep acc.1 x.1 x.2).1 o⟩ :
        Emission)) (relayStep acc.1 x.1 x.2).2)
    (hn : e.isJoinedNotice s r) (hr : r ≠ idRoom s) : ∃ e1 ∈ acc.2, e1.isRosterReply s r := by
  obtain ⟨o, ho, hoe⟩ := List.mem_map.1 hmem
  obtain ⟨hrc, y, u, hout⟩ := hn
  subst hoe
  simp only at hrc hout
  obtain ⟨_, hy, hns⟩ := relayStep_joined_out acc.1 x.1 x.2 o r y u ho hout
  subst hy
  rw [hout] at hrc
  simp only [recipients, List.mem_filter, decide_eq_true_eq] at hrc
  rcases relayStep_rooms acc.1 x.1 x.2 s r hrc.1 with h1 | ⟨h1, _⟩ | h1
  · rcases hseen hns s r h1 with h3 | h3
    · exact absurd h3 hr
    · exact h3
  · exact absurd h1 hrc.2
  · exact absurd h1 hr

theorem rosterFirst_step (acc : Relay × List Emission) (x : SocketId × RelayEvent)
    (hseen : acc.1.namespaced = true → RosterSeen acc) (h : RosterFirst acc.2) :
    RosterFirst (traceStep acc x).2 := by
  intro s r pre e post hsplit hn hr
  simp only [traceStep] at hsplit
  rcases List.append_eq_append_iff.1 hsplit.symm with ⟨a, ha1, ha2⟩ | ⟨c, hc1, hc2⟩
  · cases a with
    | nil =>
      simp only [List.append_nil] at ha1
      simp only [List.nil_append] at ha2
      obtain ⟨e1, he1, hr1⟩ := notice_in_step acc x hseen s r e
        (by rw [← ha2]; exact List.mem_cons_self _ _) hn hr
      exact ⟨e1, by rw [← ha1]; exact he1, hr1⟩
    | cons a0 as =>
      simp only [List.cons_append, List.cons.injEq] at ha2
      obtain ⟨ha0, _⟩ := ha2
      subst ha0
      exact h s r pre e as ha1 hn hr
  · obtain ⟨e1, he1, hr1⟩ := notice_in_step acc x hseen s r e
      (by rw [hc2]; exact List.mem_append_right _ (List.mem_cons_self _ _)) hn hr
    exact ⟨e1, by rw [hc1]; exact List.mem_append_left _ he1, hr1⟩

theorem roster_run (evs : List (SocketId × RelayEvent)) :
    ∀ acc : Relay × List Emission, (acc.1.namespaced = true → RosterSeen acc) →
      RosterFirst acc.2 → RosterFirst (relayRun acc evs).2 := by
  induction evs with
  | nil => intro acc _ h2; exact h2
  | cons x rest ih =>
    intro acc h1 h2
    simp only [relayRun, List.foldl_cons]
    refine ih (traceStep acc x) ?_ (rosterFirst_step acc x h1 h2)
    intro hns
    have hns0 : acc.1.namespaced = true := by
      rw [← relayStep_namespaced acc.1 x.1 x.2]
      exact hns
    exact rosterSeen_step acc x hns0 (h1 hns0)

/-- C12 (as the code has it): in the output trace of the relay after any
sequence of events from the empty registry, on either mount, every
`voice-user-joined` notification that reaches a socket, for a room other than
the one named by the id of that socket, comes after a roster reply to that
socket for its own join of that room; the broadcast of a join never reaches
the joining socket; and within one join the handler emits the roster reply
first and the broadcast second when mounted on a namespace, and nothing when
mounted on the server object. -/
theorem roster_before_joined_notice (ns : Bool) (evs : List (SocketId × RelayEvent)) :
    RosterFirst (relayRun (Relay.emptyOn ns, []) evs).2 ∧
    (∀ (st : Relay) (s : SocketId) (r : RoomId) (u : UserId),
      s ∉ recipients (voiceJoin st s r u).1 (Out.broadcast r s (.voiceUserJoined u)) ∧
      (st.namespaced = true →
        (relayStep st s (.msg (.voiceJoin r u))).2 =
          [Out.reply s (.voiceUsers (roster (voiceJoin st s r u).1 r)),
           Out.broadcast r s (.voiceUserJoined u)]) ∧
      (st.namespaced = false → (relayStep st s (.msg (.voiceJoin r u))).2 = [])) := by
  constructor
  · refine roster_run evs (Relay.emptyOn ns, []) ?_ ?_
    · intro _ s r h
      simp [Relay.emptyOn] at h
    · intro s r pre e post h
      simp at h
  · intro st s r u
    refine ⟨by simp [recipients], ?_, ?_⟩
    · intro hns
      simp [relayStep, voiceJoin, hns]
    · intro hns
      simp [relayStep, voiceJoin, hns]

/-- C12 instance: socket 1 joins "r" as "u1", then socket 2 joins "r" as "u2".
The notification about "u2" that reaches socket 1 is the fourth emission, and
the roster reply to socket 1 is among the three before it. -/
theorem roster_before_joined_notice_witness :
    ∃ e1 ∈ [(⟨1, .msg (.voiceJoin "r" "u1"), .reply 1 (.voiceUsers ["u1"]), [1]⟩ : Emission),
            ⟨1, .msg (.voiceJoin "r" "u1"), .broadcast "r" 1 (.voiceUserJoined "u1"), []⟩,
            ⟨2, .msg (.voiceJoin "r" "u2"), .reply 2 (.voiceUsers ["u1", "u2"]), [2]⟩],
      e1.isRosterReply 1 "r" :=
  (roster_before_joined_notice true
      [(1, .msg (.voiceJoin "r" "u1")), (2, .msg (.voiceJoin "r" "u2"))]).1 1 "r"
    [⟨1, .msg (.voiceJoin "r" "u1"), .reply 1 (.voiceUsers ["u1"]), [1]⟩,
     ⟨1, .msg (.voiceJoin "r" "u1"), .broadcast "r" 1 (.voiceUserJoined "u1"), []⟩,
     ⟨2, .msg (.voiceJoin "r" "u2"), .reply 2 (.voiceUsers ["u1", "u2"]), [2]⟩]
    ⟨2, .msg (.voiceJoin "r" "u2"), .broadcast "r" 2 (.voiceUserJoined "u2"), [1]⟩
    [] (by decide) ⟨by decide, 2, "u2", rfl⟩ (ne_idRoom_of_head "r" (by decide) 1)

/-- C12 fails as stated: sockets 1 and 2 connect, and socket 2 sends a
`voice-join` whose room is the id of socket 1.  The trace has two emissions:
the roster reply to socket 2, and the `voice-user-joined` broadcast, which
reaches socket 1; socket 1 has never been sent a roster. -/
theorem roster_before_joined_notice_counterexample :
    (relayRun (Relay.empty, [])
      [(1, .connect), (2, .connect), (2, .msg (.voiceJoin (idRoom 1) "u2"))]).2 =
      [⟨2, .msg (.voiceJoin (idRoom 1) "u2"), .reply 2 (.voiceUsers ["u2"]), [2]⟩,
       ⟨2, .msg (.voiceJoin (idRoom 1) "u2"),
        .broadcast (idRoom 1) 2 (.voiceUserJoined "u2"), [1]⟩] := by
  decide

/-! ## The client: creating links -/

theorem peerSet_of_absent (peers : List (UserId × PeerLink)) (p : UserId) (v : PeerLink)
    (h : peerGet peers p = none) : peerSet peers p v = peers ++ [(p, v)] := by
  induction peers with
  | nil => rfl
  | cons e rest ih =>
    obtain ⟨k, w⟩ := e
    by_cases hk : k = p
    · simp [peerGet, hk] at h
    · rw [peerGet, if_neg hk] at h
      simp [peerSet, hk, ih h]

theorem peerSet_append_self (peers : List (UserId × PeerLink)) (p : UserId) (v w : PeerLink)
    (h : peerGet peers p = none) : peerSet (peers ++ [(p, v)]) p w = peers ++ [(p, w)] := by
  induction peers with
  | nil => simp [peerSet]
  | cons e rest ih =>
    obtain ⟨k, x⟩ := e
    by_cases hk : k = p
    · simp [peerGet, hk] at h
    · rw [peerGet, if_neg hk] at h
      simp [peerSet, hk, ih h]

theorem createPeerConnection_ok (env : Env) (vc : VoiceChat) (p : UserId) (o : Sdp)
    (hO : env.createOffer p = some o) (hL : env.setLocalDescription p o = true)
    (hs : vc.socket = true) :
    (createPeerConnection env vc p true).st =
      { vc with peers := peerSet (peerSet vc.peers p ⟨⟨none⟩, none⟩) p ⟨⟨some o⟩, none⟩ } ∧
    sent (createPeerConnection env vc p true).trace = [.voiceOffer p vc.userId o] ∧
    (createPeerConnection env vc p true).err = none := by
  refine ⟨?_, ?_, ?_⟩
  · simp [createPeerConnection, hO, hL, emitOn, hs]
  · cases hls : vc.localStream <;>
      simp [createPeerConnection, hO, hL, emitOn, hs, hls, sent_cons, sent_append,
        sent_addTracks, sent_nil]
  · simp [createPeerConnection, hO, hL, emitOn, hs]

theorem offersTo_nil (q : UserId) : offersTo [] q = [] := rfl

theorem offersTo_append (t1 t2 : List Effect) (q : UserId) :
    offersTo (t1 ++ t2) q = offersTo t1 q ++ offersTo t2 q := by
  simp [offersTo, sent_append]

theorem rosterIter_skip_self (env : Env) (vc : VoiceChat) (u : UserId) (h : u = vc.userId) :
    rosterIter env vc u = ⟨vc, [], none⟩ := by
  rw [rosterIter, if_pos h]

theorem rosterIter_skip_truthy (env : Env) (vc : VoiceChat) (u : UserId)
    (h : peerTruthy vc.peers u = true) : rosterIter env vc u = ⟨vc, [], none⟩ := by
  unfold rosterIter
  simp [h]

theorem rosterIter_create (env : Env) (vc : VoiceChat) (u : UserId) (h1 : u ≠ vc.userId)
    (h : peerTruthy vc.peers u = false) :
    rosterIter env vc u = createPeerConnection env vc u true := by
  unfold rosterIter
  simp [h, h1]

theorem handleVoiceUsers_cons_skip (env : Env) (vc : VoiceChat) (u : UserId)
    (rest : List UserId) (h : rosterIter env vc u = ⟨vc, [], none⟩) :
    handleVoiceUsers env vc (u :: rest) = handleVoiceUsers env vc rest := by
  rw [handleVoiceUsers_cons_ok env vc u rest (by rw [h]), h]
  simp

/-- C18 (as the code has it): with a live socket and `createOffer` and
`setLocalDescription` succeeding, `_handleVoiceUsers(users)` raises nothing and
writes `this.peers` only; afterwards a user id has a PeerLink iff it had one
before or it occurs in `users`, is not the own id and is not the name of a
property inherited from `Object.prototype`; every entry that existed before is
unchanged; each newly added peer has been sent exactly one offer, carrying the
own id as sender, nobody else has been sent an offer, and nothing but offers
was sent. -/
theorem handleVoiceUsers_ok (env : Env) (f : UserId → Sdp)
    (hO : ∀ p, env.createOffer p = some (f p))
    (hL : ∀ p d, env.setLocalDescription p d = true) (users : List UserId) :
    ∀ vc : VoiceChat, vc.socket = true →
      (handleVoiceUsers env vc users).err = none ∧
      (handleVoiceUsers env vc users).st =
        { vc with peers := (handleVoiceUsers env vc users).st.peers } ∧
      (∀ q, (peerGet (handleVoiceUsers env vc users).st.peers q).isSome = true ↔
        ((peerGet vc.peers q).isSome = true ∨
          (q ∈ users ∧ q ≠ vc.userId ∧ q ∉ protoNames))) ∧
      (∀ q, (peerGet vc.peers q).isSome = true →
        peerGet (handleVoiceUsers env vc users).st.peers q = peerGet vc.peers q) ∧
      (∀ q, offersTo (handleVoiceUsers env vc users).trace q =
        if (peerGet vc.peers q).isNone = true ∧ q ∈ users ∧ q ≠ vc.userId ∧ q ∉ protoNames
        then [.voiceOffer q vc.userId (f q)] else []) ∧
      (∀ m ∈ sent (handleVoiceUsers env vc users).trace,
        ∃ q, m = .voiceOffer q vc.userId (f q)) := by
  induction users with
  | nil =>
    intro vc _
    refine ⟨rfl, rfl, ?_, ?_, ?_, ?_⟩
    · intro q; simp [handleVoiceUsers]
    · intro q _; rfl
    · intro q; simp [handleVoiceUsers, offersTo_nil]
    · intro m hm; simp [handleVoiceUsers, sent_nil] at hm
  | cons u rest ih =>
    intro vc hs
    by_cases h1 : u = vc.userId
    · rw [handleVoiceUsers_cons_skip env vc u rest (rosterIter_skip_self env vc u h1)]
      obtain ⟨i1, i2, i3, i4, i5, i6⟩ := ih vc hs
      refine ⟨i1, i2, ?_, i4, ?_, i6⟩
      · intro q
        rw [i3 q]
        constructor
        · rintro (h | ⟨h, h'⟩)
          · exact Or.inl h
          · exact Or.inr ⟨List.mem_cons_of_mem _ h, h'⟩
        · rintro (h | ⟨h, h'⟩)
          · exact Or.inl h
          · rcases List.mem_cons.1 h with h2 | h2
            · exact absurd (h2.trans h1) h'.1
            · exact Or.inr ⟨h2, h'⟩
      · intro q
        rw [i5 q]
        by_cases hq : q = vc.userId
        · simp [hq]
        · have : q ≠ u := fun e => hq (e.trans h1)
          simp [List.mem_cons, this]
    · by_cases h2 : peerTruthy vc.peers u = false
      · have hnone : peerGet vc.peers u = none := by
          cases h : peerGet vc.peers u with
          | none => rfl
          | some v => simp [peerTruthy, h] at h2
        have hpu : u ∉ protoNames := by
          intro hmem
          simp [peerTruthy, hmem] at h2
        obtain ⟨c1, c2, c3⟩ := createPeerConnection_ok env vc u (f u) (hO u) (hL u (f u)) hs
        have hsock : (createPeerConnection env vc u true).st.socket = true := by
          rw [c1]; exact hs
        have huid : (createPeerConnection env vc u true).st.userId = vc.userId := by
          rw [c1]
        have hri := rosterIter_create env vc u h1 h2
        have e : handleVoiceUsers env vc (u :: rest) =
            ⟨(handleVoiceUsers env (createPeerConnection env vc u true).st rest).st,
             (createPeerConnection env vc u true).trace ++
               (handleVoiceUsers env (createPeerConnection env vc u true).st rest).trace,
             (handleVoiceUsers env (createPeerConnection env vc u true).st rest).err⟩ := by
          rw [handleVoiceUsers_cons_ok env vc u rest (by rw [hri]; exact c3), hri]
        obtain ⟨i1, i2, i3, i4, i5, i6⟩ := ih (createPeerConnection env vc u true).st hsock
        have hget : ∀ q, peerGet (createPeerConnection env vc u true).st.peers q =
            if q = u then some ⟨⟨some (f u)⟩, none⟩ else peerGet vc.peers q := by
          intro q
          rw [c1]
          by_cases hq : q = u
          · subst hq
            simp [peerGet_peerSet_self]
          · simp only [hq, if_false]
            rw [peerGet_peerSet_ne _ _ hq, peerGet_peerSet_ne _ _ hq]
        rw [e]
        refine ⟨i1, ?_, ?_, ?_, ?_, ?_⟩
        · show (handleVoiceUsers env (createPeerConnection env vc u true).st rest).st = _
          rw [i2, c1]
        · intro q
          show (peerGet (handleVoiceUsers env (createPeerConnection env vc u true).st
            rest).st.peers q).isSome = true ↔ _
          rw [i3 q, hget q, huid]
          by_cases hq : q = u
          · subst hq
            simp [h1, hpu]
          · simp [hq]
        · intro q hq
          show peerGet (handleVoiceUsers env (createPeerConnection env vc u true).st
            rest).st.peers q = _
          have hne : q ≠ u := by
            intro e1
            rw [e1, hnone] at hq
            simp at hq
          have h3 : (peerGet (createPeerConnection env vc u true).st.peers q).isSome = true := by
            rw [hget q, if_neg hne]; exact hq
          rw [i4 q h3, hget q, if_neg hne]
        · intro q
          show offersTo ((createPeerConnection env vc u true).trace ++
            (handleVoiceUsers env (createPeerConnection env vc u true).st rest).trace) q = _
          rw [offersTo_append, i5 q, hget q, huid]
          have hfirst : offersTo (createPeerConnection env vc u true).trace q =
              if u = q then [.voiceOffer u vc.userId (f u)] else [] := by
            simp only [offersTo, c2]
            by_cases hq : u = q <;> simp [hq]
          rw [hfirst]
          by_cases hq : q = u
          · subst hq
            simp [hnone, h1, hpu]
          · have hq' : ¬ u = q := fun e1 => hq e1.symm
            simp [hq, hq']
        · intro m hm
          rw [sent_append, c2] at hm
          rcases List.mem_append.1 hm with h3 | h3
          · exact ⟨u, by simpa using h3⟩
          · obtain ⟨q, hq⟩ := i6 m h3
            exact ⟨q, by rw [hq, huid]⟩
      · have ht : peerTruthy vc.peers u = true := by
          cases h : peerTruthy vc.peers u with
          | false => exact absurd h h2
          | true => rfl
        rw [handleVoiceUsers_cons_skip env vc u rest (rosterIter_skip_truthy env vc u ht)]
        have hcase : (peerGet vc.peers u).isSome = true ∨ u ∈ protoNames := by
          simpa [peerTruthy] using ht
        obtain ⟨i1, i2, i3, i4, i5, i6⟩ := ih vc hs
        refine ⟨i1, i2, ?_, i4, ?_, i6⟩
        · intro q
          rw [i3 q]
          constructor
          · rintro (h | ⟨h, h'⟩)
            · exact Or.inl h
            · exact Or.inr ⟨List.mem_cons_of_mem _ h, h'⟩
          · rintro (h | ⟨h, h'⟩)
            · exact Or.inl h
            · rcases List.mem_cons.1 h with h3 | h3
              · rcases hcase with hc | hc
                · exact Or.inl (h3 ▸ hc)
                · exact absurd (h3 ▸ hc) h'.2
              · exact Or.inr ⟨h3, h'⟩
        · intro q
          rw [i5 q]
          by_cases hq : q = u
          · subst hq
            rcases hcase with hc | hc
            · have hn : ¬ (peerGet vc.peers q).isNone = true := by
                cases h : peerGet vc.peers q with
                | none => simp [h] at hc
                | some v => simp
              simp [hn]
            · simp [hc]
          · simp [List.mem_cons, hq]

/-- C18 instance: the session of "me" holds a link to "p" and receives the
roster ["me", "a", "p", "a", "b"]: one offer goes to "a", none to "p". -/
theorem handleVoiceUsers_ok_witness :
    offersTo (handleVoiceUsers Env.allOk
        { startedSession "r" "me" with peers := [("p", ⟨⟨some "offer"⟩, none⟩)] }
        ["me", "a", "p", "a", "b"]).trace "a" = [.voiceOffer "a" "me" "offer"] ∧
    offersTo (handleVoiceUsers Env.allOk
        { startedSession "r" "me" with peers := [("p", ⟨⟨some "offer"⟩, none⟩)] }
        ["me", "a", "p", "a", "b"]).trace "p" = [] ∧
    (handleVoiceUsers Env.allOk
        { startedSession "r" "me" with peers := [("p", ⟨⟨some "offer"⟩, none⟩)] }
        ["me", "a", "p", "a", "b"]).err = none := by
  have h := handleVoiceUsers_ok Env.allOk (fun _ => "offer") (fun _ => rfl) (fun _ _ => rfl)
    ["me", "a", "p", "a", "b"]
    { startedSession "r" "me" with peers := [("p", ⟨⟨some "offer"⟩, none⟩)] } (by decide)
  refine ⟨?_, ?_, h.1⟩
  · rw [h.2.2.2.2.1 "a"]; decide
  · rw [h.2.2.2.2.1 "p"]; decide

/-- C18 fails as stated, in two ways.  A started session of "me" receives the
roster ["constructor", "a"] with every operation succeeding: `this.peers` has
the inherited property `constructor`, so no PeerLink is made for that user and
no offer is sent to it, while "a" gets both.  A session that was constructed
but not started has no socket: on the roster ["a", "b"] the link for "a" is
stored, the emit of the offer raises a `TypeError`, nothing is sent, and "b" is
never reached. -/
theorem handleVoiceUsers_counterexample :
    (handleVoiceUsers Env.allOk (startedSession "r" "me") ["constructor", "a"]).err = none ∧
    peerKeys (handleVoiceUsers Env.allOk (startedSession "r" "me")
      ["constructor", "a"]).st.peers = ["a"] ∧
    sent (handleVoiceUsers Env.allOk (startedSession "r" "me") ["constructor", "a"]).trace =
      [.voiceOffer "a" "me" "offer"] ∧
    (handleVoiceUsers Env.allOk (VoiceChat.new "url" "r" "me" [] false) ["a", "b"]).err =
      some .typeError ∧
    peerKeys (handleVoiceUsers Env.allOk (VoiceChat.new "url" "r" "me" [] false)
      ["a", "b"]).st.peers = ["a"] ∧
    sent (handleVoiceUsers Env.allOk (VoiceChat.new "url" "r" "me" [] false)
      ["a", "b"]).trace = [] := by
  decide

/-- C19: when `from` has no PeerLink and the offer handler finishes without
raising, the table is the old one with one entry appended, keyed by `from` and
holding the answer as local description; every other peer has the entry it had;
exactly one message was sent, the answer addressed to `from` with the own id
as sender, so no offer was sent; and no other field of the instance changed. -/
theorem handleOffer_untracked (env : Env) (vc : VoiceChat) (f : UserId) (o : Sdp)
    (habs : peerGet vc.peers f = none) (hok : (handleOffer env vc f o).err = none) :
    ∃ answer, env.createAnswer f = some answer ∧
      (handleOffer env vc f o).st =
        { vc with peers := vc.peers ++ [(f, ⟨⟨some answer⟩, none⟩)] } ∧
      sent (handleOffer env vc f o).trace = [.voiceAnswer f vc.userId answer] ∧
      (∀ q, offersTo (handleOffer env vc f o).trace q = []) ∧
      peerGet (handleOffer env vc f o).st.peers f = some ⟨⟨some answer⟩, none⟩ ∧
      (∀ q, q ≠ f → peerGet (handleOffer env vc f o).st.peers q = peerGet vc.peers q) := by
  have hpf : f ∉ protoNames := by
    intro hmem
    have ht : peerTruthy vc.peers f = true := by simp [peerTruthy, hmem]
    unfold handleOffer at hok
    simp [ht, habs] at hok
  have htr : peerTruthy vc.peers f = false := peerTruthy_of_absent vc.peers f habs hpf
  have hcp : createPeerConnection env vc f false =
      ⟨{ vc with peers := vc.peers ++ [(f, ⟨⟨none⟩, none⟩)] },
       Effect.newPeerConnection f ::
         (match vc.localStream with
          | some stream => (List.range stream.length).map (Effect.addTrack f)
          | none => []), none⟩ := by
    simp [createPeerConnection, peerSet_of_absent _ _ _ habs]
  have hsent0 : sent (match vc.localStream with
          | some stream => (List.range stream.length).map (Effect.addTrack f)
          | none => []) = [] := by
    cases vc.localStream <;> simp [sent_addTracks, sent_nil]
  have hget0 : peerGet (vc.peers ++ [(f, (⟨⟨none⟩, none⟩ : PeerLink))]) f
      = some ⟨⟨none⟩, none⟩ := by
    rw [← peerSet_of_absent _ _ _ habs, peerGet_peerSet_self]
  unfold handleOffer at hok ⊢
  simp only [htr, Bool.not_false, if_true, hcp, hget0] at hok ⊢
  by_cases h1 : env.setRemoteDescription f o = true
  · simp only [h1, if_true] at hok ⊢
    cases h2 : env.createAnswer f with
    | none => simp [h2] at hok
    | some answer =>
      simp only [h2] at hok ⊢
      by_cases h3 : env.setLocalDescription f answer = true
      · simp only [h3, if_true] at hok ⊢
        by_cases h4 : vc.socket = true
        · simp only [emitOn, h4, if_true, peerSet_append_self _ _ _ _ habs] at hok ⊢
          refine ⟨answer, rfl, rfl, ?_, ?_, ?_, ?_⟩
          · simp [sent_append, sent_cons, sent_nil, hsent0]
          · intro q
            simp [offersTo, sent_append, sent_cons, sent_nil, hsent0]
          · rw [← peerSet_of_absent _ _ _ habs, peerGet_peerSet_self]
          · intro q hq
            rw [← peerSet_of_absent _ _ _ habs, peerGet_peerSet_ne _ _ hq]
        · simp [emitOn, h4] at hok
      · simp [h3] at hok
  · simp [h1] at hok

/-- C19 instance: the session of "me" holds a link to "p" and receives an
offer from "q". -/
theorem handleOffer_untracked_witness :
    ∃ answer, Env.allOk.createAnswer "q" = some answer ∧
      (handleOffer Env.allOk
        { startedSession "r" "me" with peers := [("p", ⟨⟨some "offer"⟩, none⟩)] }
        "q" "sdp").st =
        { startedSession "r" "me" with
          peers := [("p", ⟨⟨some "offer"⟩, none⟩)] ++ [("q", ⟨⟨some answer⟩, none⟩)] } ∧
      sent (handleOffer Env.allOk
        { startedSession "r" "me" with peers := [("p", ⟨⟨some "offer"⟩, none⟩)] }
        "q" "sdp").trace = [.voiceAnswer "q" "me" answer] := by
  obtain ⟨answer, h1, h2, h3, _⟩ := handleOffer_untracked Env.allOk
    { startedSession "r" "me" with peers := [("p", ⟨⟨some "offer"⟩, none⟩)] } "q" "sdp"
    (by decide) (by decide)
  exact ⟨answer, h1, h2, h3⟩

/-! ## The client: invariants of the PeerLink table -/

theorem createPeerConnection_good {allowed : UserId → Prop}
    {Good : List (UserId × PeerLink) → Prop} (inv : TableInv allowed Good)
    (env : Env) (vc : VoiceChat) (p : UserId) (b : Bool) (hp : allowed p)
    (h : Good vc.peers) : Good (createPeerConnection env vc p b).st.peers := by
  have h1 : Good (peerSet vc.peers p ⟨⟨none⟩, none⟩) := inv.add _ _ _ h hp
  have h2 : ∀ v, Good (peerSet (peerSet vc.peers p ⟨⟨none⟩, none⟩) p v) := fun v =>
    inv.upd _ _ _ h1 (by rw [peerGet_peerSet_self]; rfl)
  unfold createPeerConnection emitOn
  dsimp only
  repeat' split
  all_goals first | exact h1 | exact h2 _

theorem rosterIter_good {allowed : UserId → Prop}
    {Good : List (UserId × PeerLink) → Prop} (inv : TableInv allowed Good)
    (env : Env) (vc : VoiceChat) (u : UserId) (hown : ∀ p, p ≠ vc.userId → allowed p)
    (h : Good vc.peers) : Good (rosterIter env vc u).st.peers := by
  unfold rosterIter
  split
  · exact h
  · rename_i hu
    split
    · exact createPeerConnection_good inv env vc u true (hown u hu) h
    · exact h

theorem rosterIter_userId (env : Env) (vc : VoiceChat) (u : UserId) :
    (rosterIter env vc u).st.userId = vc.userId := by
  rw [rosterIter_frame]

theorem handleVoiceUsers_good {allowed : UserId → Prop}
    {Good : List (UserId × PeerLink) → Prop} (inv : TableInv allowed Good)
    (env : Env) (users : List UserId) :
    ∀ vc : VoiceChat, (∀ p, p ≠ vc.userId → allowed p) → Good vc.peers →
      Good (handleVoiceUsers env vc users).st.peers := by
  induction users with
  | nil => intro vc _ h; exact h
  | cons u rest ih =>
    intro vc hown h
    have hg := rosterIter_good inv env vc u hown h
    cases h3 : (rosterIter env vc u).err with
    | some e =>
      rw [handleVoiceUsers_cons_err env vc u rest e h3]
      exact hg
    | none =>
      rw [handleVoiceUsers_cons_ok env vc u rest h3]
      apply ih _ _ hg
      intro p hp
      apply hown
      rw [rosterIter_userId] at hp
      exact hp

theorem handleOffer_good {allowed : UserId → Prop}
    {Good : List (UserId × PeerLink) → Prop} (inv : TableInv allowed Good)
    (env : Env) (vc : VoiceChat) (f : UserId) (o : Sdp) (hf : allowed f)
    (h : Good vc.peers) : Good (handleOffer env vc f o).st.peers := by
  have key : ∀ r0 : Run, Good r0.st.peers →
      Good (match peerGet r0.st.peers f with
        | none => (⟨r0.st, r0.trace, some JsError.typeError⟩ : Run)
        | some link =>
          if env.setRemoteDescription f o = true then
            match env.createAnswer f with
            | none => ⟨r0.st, r0.trace ++ [Effect.setRemoteDescription f o] ++
                [Effect.createAnswer f], some JsError.negotiationFailed⟩
            | some answer =>
              if env.setLocalDescription f answer = true then
                emitOn { r0.st with
                    peers := peerSet r0.st.peers f { link with pc := ⟨some answer⟩ } }
                  (r0.trace ++ [Effect.setRemoteDescription f o] ++
                    [Effect.createAnswer f, Effect.setLocalDescription f answer])
                  (ClientMsg.voiceAnswer f vc.userId answer)
              else ⟨r0.st, r0.trace ++ [Effect.setRemoteDescription f o] ++
                    [Effect.createAnswer f, Effect.setLocalDescription f answer],
                  some JsError.negotiationFailed⟩
          else ⟨r0.st, r0.trace ++ [Effect.setRemoteDescription f o],
            some JsError.negotiationFailed⟩).st.peers := by
    intro r0 hr
    cases hl : peerGet r0.st.peers f with
    | none => exact hr
    | some link =>
      dsimp only
      split
      · cases env.createAnswer f with
        | none => exact hr
        | some answer =>
          dsimp only
          split
          · rw [emitOn_st]
            exact inv.upd _ _ _ hr (by rw [hl]; rfl)
          · exact hr
      · exact hr
  unfold handleOffer
  cases h0 : peerTruthy vc.peers f with
  | false =>
    simp only [Bool.not_false, if_true]
    exact key _ (createPeerConnection_good inv env vc f false hf h)
  | true =>
    simp only [Bool.not_true, Bool.false_eq_true, if_false]
    exact key ⟨vc, [], none⟩ h

theorem clientStep_good {allowed : UserId → Prop}
    {Good : List (UserId × PeerLink) → Prop} (inv : TableInv allowed Good)
    (env : Env) (vc : VoiceChat) (ev : ClientEvent)
    (hown : ∀ p, p ≠ vc.userId → allowed p)
    (hev : ∀ f o, ev = .server (.voiceOffer f o) → allowed f)
    (h : Good vc.peers) : Good (clientStep env vc ev).st.peers := by
  cases ev with
  | start =>
    simp only [clientStep, start]
    repeat' split
    all_goals exact h
  | stop => exact inv.nil
  | mute => simp only [clientStep, mute]; split <;> exact h
  | unmute => simp only [clientStep, unmute]; split <;> exact h
  | server m =>
    cases m with
    | voiceUsers users => exact handleVoiceUsers_good inv env users vc hown h
    | voiceUserJoined u =>
      simp only [clientStep, onServerMsg, handleUserJoined]
      split
      · exact h
      · rename_i hu
        split
        · exact createPeerConnection_good inv env vc u true (hown u hu) h
        · exact h
    | voiceUserLeft u =>
      simp only [clientStep, onServerMsg, handleUserLeft]
      split
      · exact inv.del _ _ h
      · exact h
    | voiceOffer f o => exact handleOffer_good inv env vc f o (hev f o rfl) h
    | voiceAnswer f a =>
      simp only [clientStep, onServerMsg, handleAnswer]
      repeat' split
      all_goals exact h
    | voiceIceCandidate f c =>
      simp only [clientStep, onServerMsg, handleRemoteCandidate]
      repeat' split
      all_goals exact h
  | connectionStateChange p state =>
    simp only [clientStep, onconnectionstatechange, handleUserLeft]
    repeat' split
    · exact inv.del _ _ h
    · exact h
    · exact h
  | iceCandidate p c =>
    simp only [clientStep, onicecandidate]
    split
    · rw [emitOn_st]; exact h
    · exact h
  | track p =>
    simp only [clientStep, ontrack]
    split
    · rename_i link hl
      exact inv.upd _ _ _ h (by rw [hl]; rfl)
    · exact h

theorem clientStep_userId (env : Env) (vc : VoiceChat) (ev : ClientEvent) :
    (clientStep env vc ev).st.userId = vc.userId := by
  cases ev with
  | start =>
    simp only [clientStep, start]
    repeat' split
    all_goals rfl
  | stop => rfl
  | mute => simp only [clientStep, mute]; split <;> rfl
  | unmute => simp only [clientStep, unmute]; split <;> rfl
  | server m =>
    simp only [clientStep]
    rw [onServerMsg_frame]
  | connectionStateChange p state =>
    simp only [clientStep, onconnectionstatechange, handleUserLeft]
    repeat' split
    all_goals rfl
  | iceCandidate p c =>
    simp only [clientStep, onicecandidate]
    split
    · rw [emitOn_st]
    · rfl
  | track p =>
    simp only [clientStep, ontrack]
    split <;> rfl

theorem runClient_good {allowed : UserId → Prop}
    {Good : List (UserId × PeerLink) → Prop} (inv : TableInv allowed Good)
    (evs : List (Env × ClientEvent)) :
    ∀ vc : VoiceChat, (∀ p, p ≠ vc.userId → allowed p) →
      (∀ x ∈ evs, ∀ f o, x.2 = ClientEvent.server (.voiceOffer f o) → allowed f) →
      Good vc.peers → Good (runClient vc evs).peers := by
  induction evs with
  | nil => intro vc _ _ h; exact h
  | cons x rest ih =>
    intro vc hown hev h
    obtain ⟨env, ev⟩ := x
    simp only [runClient]
    apply ih
    · intro p hp
      rw [clientStep_userId] at hp
      exact hown p hp
    · intro y hy
      exact hev y (List.mem_cons_of_mem _ hy)
    · exact clientStep_good inv env vc ev hown (hev (env, ev) (List.mem_cons_self _ _)) h

theorem peerKeys_peerSet (l : List (UserId × PeerLink)) (p : UserId) (v : PeerLink) :
    peerKeys (peerSet l p v) = if p ∈ peerKeys l then peerKeys l else peerKeys l ++ [p] := by
  induction l with
  | nil => simp [peerSet, peerKeys]
  | cons e rest ih =>
    obtain ⟨k, w⟩ := e
    by_cases hk : k = p
    · subst hk
      simp [peerSet, peerKeys]
    · have hk' : ¬ p = k := fun e => hk e.symm
      simp only [peerKeys] at ih
      simp only [peerSet, hk, if_false, peerKeys, List.map_cons, List.mem_cons, hk', false_or, ih]
      split <;> simp

theorem tableInv_nodup :
    TableInv (fun _ => True) (fun l => (peerKeys l).Nodup) where
  nil := List.nodup_nil
  add := by
    intro l p v h _
    rw [peerKeys_peerSet]
    split
    · exact h
    · rename_i hp
      exact List.nodup_append.2 ⟨h, List.nodup_singleton p, by
        intro a ha hb
        rw [List.mem_singleton] at hb
        exact hp (hb ▸ ha)⟩
  upd := by
    intro l p v h _
    rw [peerKeys_peerSet]
    split
    · exact h
    · rename_i hp
      exact List.nodup_append.2 ⟨h, List.nodup_singleton p, by
        intro a ha hb
        rw [List.mem_singleton] at hb
        exact hp (hb ▸ ha)⟩
  del := by
    intro l p h
    have : peerKeys (peerDelete l p) = (peerKeys l).filter (fun k => k ≠ p) := by
      simp [peerKeys, peerDelete, List.filter_map, Function.comp_def]
    rw [this]
    exact h.filter _

theorem tableInv_noSelf (own : UserId) :
    TableInv (fun p => p ≠ own) (fun l => peerGet l own = none) where
  nil := rfl
  add := by
    intro l p v h hp
    rw [peerGet_peerSet_ne _ _ (Ne.symm hp)]
    exact h
  upd := by
    intro l p v h hp
    have hne : own ≠ p := by
      intro e
      rw [← e, h] at hp
      simp at hp
    rw [peerGet_peerSet_ne _ _ hne]
    exact h
  del := by
    intro l p h
    by_cases e : own = p
    · rw [e]; exact peerGet_peerDelete_self l p
    · rw [peerGet_peerDelete_ne _ e]; exact h

/-- After every sequence of events on a freshly constructed session the
PeerLink table has at most one entry per user id. -/
theorem peers_nodup_keys (socketUrl : String) (r : RoomId) (u : UserId)
    (iceServers : List String) (debug : Bool) (evs : List (Env × ClientEvent)) :
    (peerKeys (runClient (VoiceChat.new socketUrl r u iceServers debug) evs).peers).Nodup :=
  runClient_good tableInv_nodup evs _ (fun _ _ => trivial) (fun _ _ _ _ _ => trivial)
    List.nodup_nil

/-- As long as no inbound offer names the session's own user id as its sender,
the table of a freshly constructed session never gets an entry keyed by that
id. -/
theorem no_self_link_without_self_offer (socketUrl : String) (r : RoomId) (u : UserId)
    (iceServers : List String) (debug : Bool) (evs : List (Env × ClientEvent))
    (h : ∀ x ∈ evs, ∀ o, x.2 ≠ ClientEvent.server (.voiceOffer u o)) :
    peerGet (runClient (VoiceChat.new socketUrl r u iceServers debug) evs).peers u = none :=
  runClient_good (tableInv_noSelf u) evs _ (fun _ hp => hp)
    (fun x hx f o hxe hf => h x hx o (by rw [hxe, hf])) rfl



end Gambowl
